import Mathlib

/-!
Shallow embedding of the spliit backup/import subsystem.

Sources embedded:
* `src/lib/json-import.ts` — lightweight JSON format: `compareJSONVersions`,
  `calculateJSONDifferences`, `restoreGroupFromJSON`, `mapSplitMode`,
  `mapRecurrenceRule`.
* `src/lib/backup.ts` — full-backup format: `compareVersions`,
  `calculateDifferences`, `restoreGroupFromBackup`.
* `src/app/groups/backup/import/route.ts` and the JSON import route —
  mode derivation for the `restore`/`rollback` actions.
* the `undo-import` route handler.

Timestamps are modelled as `Int` milliseconds since the epoch (what
JavaScript `Date.getTime()` returns); an ISO string is an injective image
of that value, so string keys built from ISO dates are modelled as the
underlying number.  `randomUUID` is modelled as a draw from an injective
supply `uuidName` indexed by a counter threaded through the store, so each
draw is distinct from every earlier draw.  The persistent store is
modelled as lists of rows without store-level constraints: the spec
states the referential invariant is "enforced by the Restore Engine's
pre-validation, not by the data store".
-/

namespace Spliit

/-- ISO day truncation: `toISOString().split('T')[0]` identifies exactly the
UTC day, i.e. the floor of the millisecond timestamp by one day. -/
def dayKey (t : Int) : Int := Int.fdiv t 86400000

/-- The `randomUUID` supply: the `n`-th draw. Injective, and never of the form of
ids carried by snapshots in the concrete scenarios below. -/
def uuidName (n : Nat) : String := "uuid-" ++ toString n

/-! ## Lightweight JSON format (`src/lib/json-import.ts`) -/
structure JSONCategory where
  grouping : String
  name : String
  deriving DecidableEq, Repr

structure JSONPaidFor where
  participantId : String
  shares : Int
  deriving DecidableEq, Repr

structure JSONExpense where
  createdAt : Int
  expenseDate : Int
  title : String
  category : Option JSONCategory
  amount : Int
  originalAmount : Option Int
  originalCurrency : Option String
  /-- kept as the raw string; the numeric `parseFloat` of this field is a
  floating-point conversion not needed by any property below. -/
  conversionRate : Option String
  paidById : String
  paidFor : List JSONPaidFor
  isReimbursement : Bool
  splitMode : String
  recurrenceRule : Option String
  deriving DecidableEq, Repr

structure JSONParticipant where
  id : String
  name : String
  deriving DecidableEq, Repr

structure JSONImportData where
  id : String
  name : String
  currency : String
  currencyCode : Option String
  expenses : List JSONExpense
  participants : List JSONParticipant
  deriving DecidableEq, Repr

inductive VersionComparisonResult where
  | NEWER
  | OLDER
  | SAME
  | NOT_FOUND
  deriving DecidableEq, Repr

structure VersionComparison where
  result : VersionComparisonResult
  existingGroupUpdatedAt : Option Int
  jsonExportedAt : Int
  deriving DecidableEq, Repr

structure JSONGroupComparison where
  addedExpenses : Nat
  removedExpenses : Nat
  modifiedExpenses : Nat
  addedParticipants : Nat
  removedParticipants : Nat
  deriving DecidableEq, Repr

/-- Shape of the id-only projection used by the routes when fetching participants. -/
structure IdRef where
  id : String
  deriving DecidableEq, Repr

/-- Shape of the expense-row projection (id, createdAt, expenseDate), as fetched
by the JSON import route. -/
structure ExistingExpenseRef where
  id : String
  createdAt : Int
  expenseDate : Int
  deriving DecidableEq, Repr

/-- The `ExistingGroup` shape consumed by `compareJSONVersions` and
`calculateJSONDifferences` (participants, expenses, activity times). -/
structure ExistingGroup where
  participants : List IdRef
  expenses : List ExistingExpenseRef
  activities : List Int
  deriving DecidableEq, Repr

inductive SplitMode where
  | EVENLY
  | BY_SHARES
  | BY_PERCENTAGE
  | BY_AMOUNT
  deriving DecidableEq, Repr

inductive RecurrenceRule where
  | NONE
  | DAILY
  | WEEKLY
  | MONTHLY
  deriving DecidableEq, Repr

def SplitMode.toStr : SplitMode → String
  | .EVENLY => "EVENLY"
  | .BY_SHARES => "BY_SHARES"
  | .BY_PERCENTAGE => "BY_PERCENTAGE"
  | .BY_AMOUNT => "BY_AMOUNT"

def RecurrenceRule.toStr : RecurrenceRule → String
  | .NONE => "NONE"
  | .DAILY => "DAILY"
  | .WEEKLY => "WEEKLY"
  | .MONTHLY => "MONTHLY"

/-- Embedding of `mapSplitMode` (json-import.ts lines 64-76): unrecognized values fall
through to `EVENLY`. -/
def mapSplitMode (value : String) : SplitMode :=
  if value = "BY_SHARES" then .BY_SHARES
  else if value = "BY_PERCENTAGE" then .BY_PERCENTAGE
  else if value = "BY_AMOUNT" then .BY_AMOUNT
  else .EVENLY

/-- Embedding of `mapRecurrenceRule` (json-import.ts lines 78-90): unrecognized values
(including `null`) fall through to `NONE`. -/
def mapRecurrenceRule (value : Option String) : RecurrenceRule :=
  match value with
  | some "DAILY" => .DAILY
  | some "WEEKLY" => .WEEKLY
  | some "MONTHLY" => .MONTHLY
  | _ => .NONE

/-- The JSON snapshot's effective timestamp (json-import.ts lines 100-102):
the maximum expense date, or the epoch (`new Date(0)`) when there are no
expenses. -/
def jsonSnapshotTime (j : JSONImportData) : Int :=
  ((j.expenses.map (·.expenseDate)).max?).getD 0

/-- The live group's last-modified time as `compareJSONVersions` computes it
(json-import.ts lines 112-122): `latestExpense && latestActivity ? max :
latestExpense || latestActivity || new Date(0)`. -/
def jsonLiveLastModified (g : ExistingGroup) : Int :=
  match (g.expenses.map (·.expenseDate)).max?, g.activities.max? with
  | some e, some a => max e a
  | some e, none => e
  | none, some a => a
  | none, none => 0

/-- Embedding of `compareJSONVersions` (json-import.ts lines 95-144). -/
def compareJSONVersions (jsonData : JSONImportData)
    (existingGroup : Option ExistingGroup) : VersionComparison :=
  let latestExpenseDate := jsonSnapshotTime jsonData
  match existingGroup with
  | none =>
      { result := .NOT_FOUND
        existingGroupUpdatedAt := none
        jsonExportedAt := latestExpenseDate }
  | some g =>
      let existingGroupUpdatedAt := jsonLiveLastModified g
      if latestExpenseDate > existingGroupUpdatedAt then
        { result := .NEWER
          existingGroupUpdatedAt := some existingGroupUpdatedAt
          jsonExportedAt := latestExpenseDate }
      else if latestExpenseDate < existingGroupUpdatedAt then
        { result := .OLDER
          existingGroupUpdatedAt := some existingGroupUpdatedAt
          jsonExportedAt := latestExpenseDate }
      else
        { result := .SAME
          existingGroupUpdatedAt := some existingGroupUpdatedAt
          jsonExportedAt := latestExpenseDate }

/-- Embedding of `calculateJSONDifferences` (json-import.ts lines 149-189).  The expense
pseudo-key is the expense date truncated to the day
(`toISOString().split('T')[0]`); participants are compared by id. -/
def calculateJSONDifferences (jsonData : JSONImportData)
    (existingGroup : ExistingGroup) : JSONGroupComparison :=
  let existingParticipantIds := existingGroup.participants.map (·.id)
  let existingExpenseDates := existingGroup.expenses.map (fun e => dayKey e.expenseDate)
  let jsonExpenseDates := jsonData.expenses.map (fun e => dayKey e.expenseDate)
  { addedExpenses :=
      (jsonData.expenses.filter
        (fun e => !existingExpenseDates.contains (dayKey e.expenseDate))).length
    removedExpenses :=
      (existingGroup.expenses.filter
        (fun e => !jsonExpenseDates.contains (dayKey e.expenseDate))).length
    modifiedExpenses := 0
    addedParticipants :=
      (jsonData.participants.filter
        (fun p => !existingParticipantIds.contains p.id)).length
    removedParticipants :=
      (existingGroup.participants.filter
        (fun p => !jsonData.participants.any (fun jp => jp.id == p.id))).length }

/-! ## Full backup format (`src/lib/backup.ts`) -/
structure BackupGroup where
  id : String
  name : String
  information : Option String
  currency : String
  currencyCode : Option String
  createdAt : Int
  deriving DecidableEq, Repr

structure BackupCategory where
  id : Int
  name : String
  grouping : String
  deriving DecidableEq, Repr

structure BackupDocument where
  id : String
  url : String
  width : Int
  height : Int
  deriving DecidableEq, Repr

structure BackupRecurringLink where
  id : String
  nextExpenseCreatedAt : Option Int
  nextExpenseDate : Int
  deriving DecidableEq, Repr

structure BackupExpense where
  id : String
  expenseDate : Int
  createdAt : Int
  title : String
  category : Option BackupCategory
  amount : Int
  originalAmount : Option Int
  originalCurrency : Option String
  conversionRate : Option String
  paidById : String
  paidFor : List JSONPaidFor
  isReimbursement : Bool
  splitMode : String
  notes : Option String
  documents : List BackupDocument
  recurrenceRule : Option String
  recurringExpenseLink : Option BackupRecurringLink
  deriving DecidableEq, Repr

structure BackupActivity where
  id : String
  time : Int
  activityType : String
  participantId : Option String
  expenseId : Option String
  data : Option String
  deriving DecidableEq, Repr

structure BackupData where
  version : String
  exportedAt : Int
  group : BackupGroup
  participants : List JSONParticipant
  expenses : List BackupExpense
  activities : List BackupActivity
  deriving DecidableEq, Repr

structure GroupComparison where
  result : VersionComparisonResult
  existingGroupUpdatedAt : Option Int
  backupExportedAt : Int
  deriving DecidableEq, Repr

/-- The `existingGroup` shape consumed by `compareVersions`: creation
timestamp, expense creation timestamps, activity times. -/
structure BackupExistingGroup where
  createdAt : Int
  expenses : List Int
  activities : List Int
  deriving DecidableEq, Repr

/-- The live group's last-modified time as `compareVersions` computes it
(backup.ts lines 679-690): latest expense creation time (falling back to the
group's creation time when there is none), combined by `max` with the latest
activity time (same fallback). -/
def backupLiveLastModified (g : BackupExistingGroup) : Int :=
  max (g.expenses.max?.getD g.createdAt) (g.activities.max?.getD g.createdAt)

/-- Embedding of `compareVersions` (backup.ts lines 662-712). -/
def compareVersions (backupData : BackupData)
    (existingGroup : Option BackupExistingGroup) : GroupComparison :=
  let backupExportedAt := backupData.exportedAt
  match existingGroup with
  | none =>
      { result := .NOT_FOUND
        existingGroupUpdatedAt := none
        backupExportedAt := backupExportedAt }
  | some g =>
      let existingGroupUpdatedAt := backupLiveLastModified g
      if backupExportedAt > existingGroupUpdatedAt then
        { result := .NEWER
          existingGroupUpdatedAt := some existingGroupUpdatedAt
          backupExportedAt := backupExportedAt }
      else if backupExportedAt < existingGroupUpdatedAt then
        { result := .OLDER
          existingGroupUpdatedAt := some existingGroupUpdatedAt
          backupExportedAt := backupExportedAt }
      else
        { result := .SAME
          existingGroupUpdatedAt := some existingGroupUpdatedAt
          backupExportedAt := backupExportedAt }

/-- The `{ participants, expenses }` id projection of the live group consumed
by `calculateDifferences`. -/
structure BackupLiveIds where
  participants : List IdRef
  expenses : List IdRef
  deriving DecidableEq, Repr

/-- Embedding of `calculateDifferences` (backup.ts lines 717-737): identifier-set
difference in both directions, `modifiedExpenses` fixed at 0. -/
def calculateDifferences (backupData : BackupData)
    (existingGroup : BackupLiveIds) : JSONGroupComparison :=
  let backupExpenseIds := backupData.expenses.map (·.id)
  let existingExpenseIds := existingGroup.expenses.map (·.id)
  let backupParticipantIds := backupData.participants.map (·.id)
  let existingParticipantIds := existingGroup.participants.map (·.id)
  { addedExpenses :=
      (backupData.expenses.filter (fun e => !existingExpenseIds.contains e.id)).length
    removedExpenses :=
      (existingGroup.expenses.filter (fun e => !backupExpenseIds.contains e.id)).length
    modifiedExpenses := 0
    addedParticipants :=
      (backupData.participants.filter
        (fun p => !existingParticipantIds.contains p.id)).length
    removedParticipants :=
      (existingGroup.participants.filter
        (fun p => !backupParticipantIds.contains p.id)).length }

/-- A backup dataset seen in the live-group role: the id projections of its
participants and expenses. -/
def backupAsLive (b : BackupData) : BackupLiveIds :=
  { participants := b.participants.map (fun p => ⟨p.id⟩)
    expenses := b.expenses.map (fun e => ⟨e.id⟩) }

/-! ## The persistent store

Rows are kept in lists in insertion order.  Per the spec the referential
invariant is enforced by the Restore Engine's pre-validation, not by the
data store, so creation simply appends. -/
structure GroupRow where
  id : String
  name : String
  currency : String
  currencyCode : Option String
  information : Option String
  createdAt : Int
  deriving DecidableEq, Repr

structure ParticipantRow where
  id : String
  groupId : String
  name : String
  deriving DecidableEq, Repr

structure ExpenseRow where
  id : String
  groupId : String
  expenseDate : Int
  createdAt : Int
  title : String
  categoryId : Int
  amount : Int
  originalAmount : Option Int
  originalCurrency : Option String
  conversionRate : Option String
  paidById : String
  isReimbursement : Bool
  splitMode : String
  recurrenceRule : Option String
  notes : Option String
  deriving DecidableEq, Repr

structure PaidForRow where
  expenseId : String
  participantId : String
  shares : Int
  deriving DecidableEq, Repr

structure CategoryRow where
  id : Int
  grouping : String
  name : String
  deriving DecidableEq, Repr

structure ActivityRow where
  id : String
  groupId : String
  time : Int
  activityType : String
  participantId : Option String
  expenseId : Option String
  data : Option String
  deriving DecidableEq, Repr

structure DocumentRow where
  id : String
  url : String
  width : Int
  height : Int
  expenseId : String
  deriving DecidableEq, Repr

structure RecurringLinkRow where
  id : String
  groupId : String
  currentFrameExpenseId : String
  nextExpenseCreatedAt : Option Int
  nextExpenseDate : Int
  deriving DecidableEq, Repr

structure Store where
  /-- counter for the `randomUUID` supply -/
  nextId : Nat
  /-- autoincrement counter for `Category.id` -/
  nextCategoryId : Int
  groups : List GroupRow
  participants : List ParticipantRow
  expenses : List ExpenseRow
  paidFors : List PaidForRow
  categories : List CategoryRow
  activities : List ActivityRow
  documents : List DocumentRow
  recurringLinks : List RecurringLinkRow
  deriving DecidableEq, Repr

/-- Transaction semantics of `prisma.$transaction`: an error rolls the whole
unit of work back, leaving the store unchanged. -/
def applyTx (f : Store → Except String Store) (s : Store) : Store :=
  match f s with
  | .ok s' => s'
  | .error _ => s

inductive RestoreMode where
  | create
  | update
  | rollback
  deriving DecidableEq, Repr

def RestoreMode.toStr : RestoreMode → String
  | .create => "create"
  | .update => "update"
  | .rollback => "rollback"

/-! ## `restoreGroupFromJSON` (json-import.ts lines 194-566) -/
def importMarkerPrefix : String := "JSON_IMPORT_START:"

/-- Payload of the import-start marker activity:
`JSON_IMPORT_START:<mode>:<n> expenses`. -/
def jsonImportMarkerData (mode : RestoreMode) (n : Nat) : String :=
  importMarkerPrefix ++ mode.toStr ++ ":" ++ toString n ++ " expenses"

/-- Payload of the per-expense activity row,
`JSON.stringify({ title, importDate })`; the ISO rendering of the import
time is modelled by its numeric value (an injective image). -/
def jsonExpenseActivityData (title : String) (importTime : Int) : String :=
  "\x7b\"title\":\"" ++ title ++ "\",\"importDate\":\"" ++ toString importTime ++ "\"\x7d"

/-- create-mode error for an unknown payer (json-import.ts line 240). -/
def createPaidByMsg (pid title : String) : String :=
  "Invalid paidById: " ++ pid ++ " not found in participants for expense \"" ++ title
    ++ "\". This expense was paid by a participant that doesn\x27t exist in the imported participant list."

/-- create-mode error for an unknown split participant (line 245). -/
def createPaidForMsg (pid title : String) : String :=
  "Invalid participantId: " ++ pid ++ " not found in participants for expense \"" ++ title
    ++ "\". This expense is shared with a participant that doesn\x27t exist in the imported participant list."

/-- update/rollback-mode error for an unknown payer (lines 370, 498). -/
def shortPaidByMsg (pid title : String) : String :=
  "Invalid paidById: " ++ pid ++ " not found in participants for expense \"" ++ title ++ "\""

/-- update/rollback-mode error for an unknown split participant (lines 374, 502). -/
def shortPaidForMsg (pid title : String) : String :=
  "Invalid participantId: " ++ pid ++ " not found in participants for expense \"" ++ title ++ "\""

/-- Append the import-start marker activity, drawing one uuid. -/
def addJSONMarkerActivity (j : JSONImportData) (mode : RestoreMode)
    (importTime : Int) (s : Store) : Store :=
  { s with
    nextId := s.nextId + 1
    activities := s.activities ++
      [{ id := uuidName s.nextId
         groupId := j.id
         time := importTime
         activityType := "UPDATE_GROUP"
         participantId := none
         expenseId := none
         data := some (jsonImportMarkerData mode j.expenses.length) }] }

/-- The findFirst-or-create resolution of a category by (grouping, name). -/
def resolveCategory (grouping name : String) (s : Store) : Store × Int :=
  match s.categories.find? (fun c => c.grouping == grouping && c.name == name) with
  | some c => (s, c.id)
  | none =>
      let cid := s.nextCategoryId
      ({ s with
         nextCategoryId := cid + 1
         categories := s.categories ++ [{ id := cid, grouping := grouping, name := name }] },
       cid)

/-- The `categoryId` resolution of one lightweight expense: findFirst-or-create
when a category is given, `categoryId ?? 0` otherwise. -/
def jsonCategoryResult (e : JSONExpense) (s : Store) : Store × Int :=
  match e.category with
  | some c => resolveCategory c.grouping c.name s
  | none => (s, 0)

/-- The expense row written by the lightweight restore for `e`: a fresh
uuid identifier (counter value `n`), the resolved category id `cid`, the
date/title/amount/payer fields of the snapshot, the import time as the
creation timestamp (the store's `now()` default), and the mapped
splitMode/recurrenceRule. -/
def jsonExpenseRow (gid : String) (t : Int) (e : JSONExpense) (n : Nat)
    (cid : Int) : ExpenseRow :=
  { id := uuidName n
    groupId := gid
    expenseDate := e.expenseDate
    createdAt := t
    title := e.title
    categoryId := cid
    amount := e.amount
    originalAmount := e.originalAmount
    originalCurrency := e.originalCurrency
    conversionRate := e.conversionRate
    paidById := e.paidById
    isReimbursement := e.isReimbursement
    splitMode := (mapSplitMode e.splitMode).toStr
    recurrenceRule := some (mapRecurrenceRule e.recurrenceRule).toStr
    notes := none }

/-- Insert one expense from the lightweight snapshot: resolve the category,
draw a fresh uuid for the expense, append the expense row, its paidFor rows
and one CREATE_EXPENSE activity (drawing a second uuid). -/
def createJSONExpense (groupId : String) (importTime : Int) (e : JSONExpense)
    (s : Store) : Store :=
  let catRes := jsonCategoryResult e s
  let s1 := catRes.1
  let row := jsonExpenseRow groupId importTime e s1.nextId catRes.2
  let expenseId := row.id
  { s1 with
    nextId := s1.nextId + 2
    expenses := s1.expenses ++ [row]
    paidFors := s1.paidFors ++
      e.paidFor.map (fun pf => { expenseId := expenseId, participantId := pf.participantId, shares := pf.shares })
    activities := s1.activities ++
      [{ id := uuidName (s1.nextId + 1)
         groupId := groupId
         time := importTime
         activityType := "CREATE_EXPENSE"
         participantId := none
         expenseId := some expenseId
         data := some (jsonExpenseActivityData e.title importTime) }] }

/-- Per-expense body of the create-mode loop (lines 236-307). -/
def jsonCreateStep (ids : List String) (groupId : String) (importTime : Int)
    (s : Store) (e : JSONExpense) : Except String Store :=
  if !ids.contains e.paidById then
    .error (createPaidByMsg e.paidById e.title)
  else
    match e.paidFor.find? (fun pf => !ids.contains pf.participantId) with
    | some pf => .error (createPaidForMsg pf.participantId e.title)
    | none => .ok (createJSONExpense groupId importTime e s)

/-- Per-expense body of the update-mode loop (lines 365-437): skip when the
(expense-date, title) pseudo-key is already present. -/
def jsonUpdateStep (ids : List String) (keys : List (Int × String))
    (groupId : String) (importTime : Int)
    (s : Store) (e : JSONExpense) : Except String Store :=
  if keys.contains (e.expenseDate, e.title) then .ok s
  else if !ids.contains e.paidById then
    .error (shortPaidByMsg e.paidById e.title)
  else
    match e.paidFor.find? (fun pf => !ids.contains pf.participantId) with
    | some pf => .error (shortPaidForMsg pf.participantId e.title)
    | none => .ok (createJSONExpense groupId importTime e s)

/-- Per-expense body of the rollback-mode loop (lines 495-564). -/
def jsonRollbackStep (ids : List String) (groupId : String) (importTime : Int)
    (s : Store) (e : JSONExpense) : Except String Store :=
  if !ids.contains e.paidById then
    .error (shortPaidByMsg e.paidById e.title)
  else
    match e.paidFor.find? (fun pf => !ids.contains pf.participantId) with
    | some pf => .error (shortPaidForMsg pf.participantId e.title)
    | none => .ok (createJSONExpense groupId importTime e s)

/-- Per-participant body of the update-mode participant loop (lines
345-356): skip ids already known, otherwise insert and learn the id. -/
def jsonParticipantStep (gid : String) (acc : Store × List String)
    (p : JSONParticipant) : Store × List String :=
  if acc.2.contains p.id then acc
  else
    ({ acc.1 with participants := acc.1.participants ++
        [{ id := p.id, groupId := gid, name := p.name }] },
     acc.2 ++ [p.id])

/-- Embedding of the `group.update` of the metadata fields from a lightweight snapshot
(shared verbatim by the update and rollback branches). -/
def jsonGroupMetaUpdate (j : JSONImportData) (s : Store) : Store :=
  { s with
    groups := s.groups.map (fun g =>
      if g.id == j.id then
        { g with name := j.name, currency := j.currency, currencyCode := j.currencyCode }
      else g) }

/-- Update-mode preamble: the import-start marker followed by the group
metadata update. -/
def jsonUpdateBase (j : JSONImportData) (t : Int) (s : Store) : Store :=
  jsonGroupMetaUpdate j (addJSONMarkerActivity j .update t s)

def groupParticipantIds (gid : String) (s : Store) : List String :=
  (s.participants.filter (fun p => p.groupId == gid)).map (·.id)

def groupExpenseIds (gid : String) (s : Store) : List String :=
  (s.expenses.filter (fun e => e.groupId == gid)).map (·.id)

def groupExpenseKeys (gid : String) (s : Store) : List (Int × String) :=
  (s.expenses.filter (fun e => e.groupId == gid)).map (fun e => (e.expenseDate, e.title))

/-- Embedding of `restoreGroupFromJSON`.  In rollback mode the source performs the deletes
first and lets `group.update` throw when the group row is absent; since the
whole unit of work is transactional, checking the group first is
observationally the same and is how it is modelled here. -/
def restoreGroupFromJSON (jsonData : JSONImportData) (mode : RestoreMode)
    (importTime : Int) (s : Store) : Except String Store :=
  match mode with
  | .create =>
      let s1 := { s with
        groups := s.groups ++
          [{ id := jsonData.id, name := jsonData.name, currency := jsonData.currency
             currencyCode := jsonData.currencyCode, information := none
             createdAt := importTime }]
        participants := s.participants ++
          jsonData.participants.map (fun p => { id := p.id, groupId := jsonData.id, name := p.name }) }
      let s2 := addJSONMarkerActivity jsonData .create importTime s1
      let participantIds := jsonData.participants.map (·.id)
      jsonData.expenses.foldlM (jsonCreateStep participantIds jsonData.id importTime) s2
  | .update =>
      match s.groups.find? (fun g => g.id == jsonData.id) with
      | none => .error "Group not found"
      | some _ =>
          let fetchedPartIds := groupParticipantIds jsonData.id s
          let fetchedKeys := groupExpenseKeys jsonData.id s
          let s2 := jsonUpdateBase jsonData importTime s
          let acc := jsonData.participants.foldl
            (jsonParticipantStep jsonData.id) (s2, fetchedPartIds)
          jsonData.expenses.foldlM
            (jsonUpdateStep acc.2 fetchedKeys jsonData.id importTime) acc.1
  | .rollback =>
      match s.groups.find? (fun g => g.id == jsonData.id) with
      | none => .error "Record to update not found."
      | some _ =>
          let gid := jsonData.id
          let groupExpIds := groupExpenseIds gid s
          let s1 := { s with
            paidFors := s.paidFors.filter (fun pf => !groupExpIds.contains pf.expenseId)
            expenses := s.expenses.filter (fun e => !(e.groupId == gid))
            participants := s.participants.filter (fun p => !(p.groupId == gid))
            activities := s.activities.filter (fun a => !(a.groupId == gid)) }
          let s2 := jsonGroupMetaUpdate jsonData s1
          let s3 := addJSONMarkerActivity jsonData .rollback importTime s2
          let s4 := { s3 with
            participants := s3.participants ++
              jsonData.participants.map (fun p => { id := p.id, groupId := gid, name := p.name }) }
          let participantIds := jsonData.participants.map (·.id)
          jsonData.expenses.foldlM (jsonRollbackStep participantIds gid importTime) s4

/-! ## `restoreGroupFromBackup` (backup.ts lines 742-974) -/
/-- Warning recorded for an unreachable document URL. -/
def docWarning (title url : String) : String :=
  "Document not found for expense \"" ++ title ++ "\": " ++ url

def backupGroupRow (g : BackupGroup) : GroupRow :=
  { id := g.id, name := g.name, currency := g.currency
    currencyCode := g.currencyCode, information := g.information
    createdAt := g.createdAt }

/-- The expense row written by the backup restore: every field, including the
identifier, is taken verbatim from the snapshot (`splitMode`/`recurrenceRule`
are `as any` passthroughs of the raw strings). -/
def backupExpenseRow (gid : String) (e : BackupExpense) : ExpenseRow :=
  { id := e.id
    groupId := gid
    expenseDate := e.expenseDate
    createdAt := e.createdAt
    title := e.title
    categoryId := (e.category.map (·.id)).getD 0
    amount := e.amount
    originalAmount := e.originalAmount
    originalCurrency := e.originalCurrency
    conversionRate := e.conversionRate
    paidById := e.paidById
    isReimbursement := e.isReimbursement
    splitMode := e.splitMode
    recurrenceRule := e.recurrenceRule
    notes := e.notes }

/-- Embedding of `expenseDocument.upsert` keyed on the document id. -/
def upsertDocument (d : DocumentRow) (s : Store) : Store :=
  if s.documents.any (fun x => x.id == d.id) then
    { s with documents := s.documents.map (fun x =>
        if x.id == d.id then
          { x with url := d.url, width := d.width, height := d.height, expenseId := d.expenseId }
        else x) }
  else { s with documents := s.documents ++ [d] }

/-- Per-document body of the backup document loop: an upsert when the URL is
reachable, a warning otherwise. -/
def backupDocStep (urlOk : String → Bool) (e : BackupExpense)
    (acc : Store × List String) (d : BackupDocument) : Store × List String :=
  if urlOk d.url then
    (upsertDocument { id := d.id, url := d.url, width := d.width, height := d.height, expenseId := e.id } acc.1,
     acc.2)
  else (acc.1, acc.2 ++ [docWarning e.title d.url])

/-- Document loop shared by the backup insertion paths: reachable documents
are upserted, unreachable ones produce a warning. -/
def insertBackupDocuments (urlOk : String → Bool) (e : BackupExpense)
    (sw : Store × List String) : Store × List String :=
  e.documents.foldl (backupDocStep urlOk e) sw

/-- Per-expense body of the backup create/rollback loop (lines 814-887):
expense row, paidFor rows, documents, recurring-expense link. -/
def createBackupExpense (urlOk : String → Bool) (gid : String)
    (sw : Store × List String) (e : BackupExpense) : Store × List String :=
  let s1 := { sw.1 with
    expenses := sw.1.expenses ++ [backupExpenseRow gid e]
    paidFors := sw.1.paidFors ++
      e.paidFor.map (fun pf => { expenseId := e.id, participantId := pf.participantId, shares := pf.shares }) }
  let dw := insertBackupDocuments urlOk e (s1, sw.2)
  match e.recurringExpenseLink with
  | some l =>
      ({ dw.1 with recurringLinks := dw.1.recurringLinks ++
          [{ id := l.id, groupId := gid, currentFrameExpenseId := e.id
             nextExpenseCreatedAt := l.nextExpenseCreatedAt
             nextExpenseDate := l.nextExpenseDate }] },
       dw.2)
  | none => dw

/-- Per-expense body of the backup update loop (lines 896-952): same as the
create path but without the recurring-expense link. -/
def createBackupExpenseNoLink (urlOk : String → Bool) (gid : String)
    (sw : Store × List String) (e : BackupExpense) : Store × List String :=
  let s1 := { sw.1 with
    expenses := sw.1.expenses ++ [backupExpenseRow gid e]
    paidFors := sw.1.paidFors ++
      e.paidFor.map (fun pf => { expenseId := e.id, participantId := pf.participantId, shares := pf.shares }) }
  insertBackupDocuments urlOk e (s1, sw.2)

/-- Per-participant body of the backup update loop (lines 799-809): insert
only when the id is not among the fetched existing ids. -/
def backupParticipantUpdateStep (gid : String) (existingIds : List String)
    (st : Store) (p : JSONParticipant) : Store :=
  if existingIds.contains p.id then st
  else { st with participants := st.participants ++
          [{ id := p.id, groupId := gid, name := p.name }] }

/-- Per-expense body of the backup update loop (lines 896-952): insert only
when the id is not among the fetched existing ids. -/
def backupExpenseUpdateStep (urlOk : String → Bool) (gid : String)
    (existingIds : List String) (acc : Store × List String)
    (e : BackupExpense) : Store × List String :=
  if existingIds.contains e.id then acc
  else createBackupExpenseNoLink urlOk gid acc e

/-- Embedding of `restoreGroupFromBackup`.  `urlOk` is the environment's answer to the
`checkUrlExists` reachability probe.  The expense deletion in rollback mode
removes the dependent paidFor rows as well (relation-level cascade of the
schema, which lives outside `src/`).  As in the JSON restore, the absent
group in rollback mode is checked up front rather than thrown from
`group.update`, which is transactionally equivalent. -/
def restoreGroupFromBackup (urlOk : String → Bool) (backupData : BackupData)
    (mode : RestoreMode) (s : Store) : Except String (Store × List String) := do
  let g := backupData.group
  let s ←
    match mode with
    | .create => .ok { s with groups := s.groups ++ [backupGroupRow g] }
    | .rollback =>
        match s.groups.find? (fun gr => gr.id == g.id) with
        | none => .error "Record to update not found."
        | some _ =>
            let groupExpIds := groupExpenseIds g.id s
            let s1 := { s with
              activities := s.activities.filter (fun a => !(a.groupId == g.id))
              expenses := s.expenses.filter (fun e => !(e.groupId == g.id))
              paidFors := s.paidFors.filter (fun pf => !groupExpIds.contains pf.expenseId)
              participants := s.participants.filter (fun p => !(p.groupId == g.id)) }
            .ok { s1 with
              groups := s1.groups.map (fun gr =>
                if gr.id == g.id then
                  { gr with name := g.name, information := g.information
                            currency := g.currency, currencyCode := g.currencyCode }
                else gr) }
    | .update => .ok s
  let s :=
    match mode with
    | .create | .rollback =>
        { s with participants := s.participants ++
            backupData.participants.map (fun p => { id := p.id, groupId := g.id, name := p.name }) }
    | .update =>
        let existingIds := groupParticipantIds g.id s
        backupData.participants.foldl
          (backupParticipantUpdateStep g.id existingIds)
          s
  let sw :=
    match mode with
    | .create | .rollback =>
        backupData.expenses.foldl (createBackupExpense urlOk g.id) (s, [])
    | .update =>
        let existingIds := groupExpenseIds g.id s
        backupData.expenses.foldl
          (backupExpenseUpdateStep urlOk g.id existingIds)
          (s, [])
  let sw :=
    match mode with
    | .create | .rollback =>
        ({ sw.1 with activities := sw.1.activities ++
            backupData.activities.map (fun a =>
              { id := a.id, groupId := g.id, time := a.time, activityType := a.activityType
                participantId := a.participantId, expenseId := a.expenseId, data := a.data }) },
         sw.2)
    | .update => sw
  .ok sw

/-! ## The import route handlers -/
inductive ImportAction where
  | analyze
  | restore
  | rollback
  deriving DecidableEq, Repr

/-- Mode derivation shared (textually identical) by the two import routes
(backup route lines 80-94, JSON route lines 238-252): `NOT_FOUND` means
create; an explicit rollback action means rollback; `NEWER` means update;
anything else is rejected. -/
def deriveRestoreMode (result : VersionComparisonResult) (action : ImportAction) :
    Option RestoreMode :=
  if result = .NOT_FOUND then some .create
  else if action = .rollback then some .rollback
  else if result = .NEWER then some .update
  else none

inductive HandlerOutcome where
  | analyzed (result : VersionComparisonResult)
  | ok (mode : RestoreMode) (warnings : List String)
  | badRequest (msg : String)
  | serverError (msg : String)
  deriving DecidableEq, Repr

def jsonNotNewerMsg : String :=
  "JSON export is not newer than existing group. Use rollback to restore older version."

def backupNotNewerMsg : String :=
  "Backup is not newer than existing group. Use rollback to restore older version."

/-- The JSON route's fetch of the existing group (participant ids, expense
id/createdAt/expenseDate, activity times). -/
def fetchExistingGroupJSON (s : Store) (gid : String) : Option ExistingGroup :=
  (s.groups.find? (fun g => g.id == gid)).map (fun _ =>
    { participants := (s.participants.filter (fun p => p.groupId == gid)).map (fun p => { id := p.id })
      expenses := (s.expenses.filter (fun e => e.groupId == gid)).map (fun e =>
        { id := e.id, createdAt := e.createdAt, expenseDate := e.expenseDate })
      activities := (s.activities.filter (fun a => a.groupId == gid)).map (·.time) })

/-- The JSON import route handler, restricted to its store-relevant behaviour:
compare, derive the mode, run the restore inside a transaction. -/
def handleJSONImport (jsonData : JSONImportData) (action : ImportAction)
    (importTime : Int) (s : Store) : Store × HandlerOutcome :=
  let comparison := compareJSONVersions jsonData (fetchExistingGroupJSON s jsonData.id)
  match action with
  | .analyze => (s, .analyzed comparison.result)
  | .restore | .rollback =>
      match deriveRestoreMode comparison.result action with
      | none => (s, .badRequest jsonNotNewerMsg)
      | some mode =>
          match restoreGroupFromJSON jsonData mode importTime s with
          | .ok s' => (s', .ok mode [])
          | .error e => (s, .serverError e)

/-- The backup route's fetch of the existing group (creation time, expense
creation times, activity times). -/
def fetchExistingGroupBackup (s : Store) (gid : String) : Option BackupExistingGroup :=
  (s.groups.find? (fun g => g.id == gid)).map (fun g =>
    { createdAt := g.createdAt
      expenses := (s.expenses.filter (fun e => e.groupId == gid)).map (·.createdAt)
      activities := (s.activities.filter (fun a => a.groupId == gid)).map (·.time) })

/-- The backup import route handler, restricted to its store-relevant
behaviour. -/
def handleBackupImport (urlOk : String → Bool) (backupData : BackupData)
    (action : ImportAction) (s : Store) : Store × HandlerOutcome :=
  let comparison := compareVersions backupData (fetchExistingGroupBackup s backupData.group.id)
  match action with
  | .analyze => (s, .analyzed comparison.result)
  | .restore | .rollback =>
      match deriveRestoreMode comparison.result action with
      | none => (s, .badRequest backupNotNewerMsg)
      | some mode =>
          match restoreGroupFromBackup urlOk backupData mode s with
          | .ok sw => (sw.1, .ok mode sw.2)
          | .error e => (s, .serverError e)

/-! ## The `undo-import` route handler -/
inductive UndoOutcome where
  | success
  | groupNotFound
  | noImportFound
  deriving DecidableEq, Repr

/-- The group's import-marker activities: payload starts with
`JSON_IMPORT_START:` (the Prisma `startsWith` filter, modelled as a prefix
test on the character lists). -/
def groupImportMarkers (gid : String) (s : Store) : List ActivityRow :=
  s.activities.filter (fun a =>
    a.groupId == gid && importMarkerPrefix.data.isPrefixOf (a.data.getD "").data)

/-- The `undo-import` handler.  The marker fetched with
`orderBy time desc, take 1` is one of maximal time; the deletions depend
only on that time, so the marker is modelled by `max?` over marker times.
All three deletions run in one transaction. -/
def undoLastImport (gid : String) (s : Store) : Store × UndoOutcome :=
  if (s.groups.find? (fun g => g.id == gid)).isNone then (s, .groupNotFound)
  else
    match ((groupImportMarkers gid s).map (·.time)).max? with
    | none => (s, .noImportFound)
    | some t =>
        let doomedExpenseIds :=
          (s.expenses.filter (fun e => e.groupId == gid && t ≤ e.createdAt)).map (·.id)
        ({ s with
           paidFors := s.paidFors.filter (fun pf => !doomedExpenseIds.contains pf.expenseId)
           expenses := s.expenses.filter (fun e => !(e.groupId == gid && t ≤ e.createdAt))
           activities := s.activities.filter (fun a => !(a.groupId == gid && t ≤ a.time)) },
         .success)

/-- The fields of a lightweight-format expense that the Restore Engine's
validation and duplicate detection inspect: date, title, payer, split
participants. -/
def expenseSig (e : JSONExpense) : Int × String × String × List JSONPaidFor :=
  (e.expenseDate, e.title, e.paidById, e.paidFor)

/-- Whether the per-expense validation rejects `e` given the known
participant ids: unknown payer or some unknown split participant. -/
def jsonExpenseBad (ids : List String) (e : JSONExpense) : Bool :=
  !(ids.contains e.paidById) ||
    (e.paidFor.find? (fun pf => !ids.contains pf.participantId)).isSome

/-- The validation predicate factors through the signature. -/
def jsonSigBad (ids : List String) : Int × String × String × List JSONPaidFor → Bool :=
  fun sig =>
    !(ids.contains sig.2.2.1) ||
      (sig.2.2.2.find? (fun pf => !ids.contains pf.participantId)).isSome

/-! ## C3 -/
/-- The last-modified rule as the claim words it: the maximum across the
latest expense timestamp and the latest activity timestamp, falling back to
the group's creation timestamp when either set is empty.  (This is the rule
`compareVersions` implements; stated separately to compare the claim against
`compareJSONVersions`.) -/
def claimLastModified (createdAt : Int) (expenseTimes activityTimes : List Int) : Int :=
  max (expenseTimes.max?.getD createdAt) (activityTimes.max?.getD createdAt)

/-- The group the C3 counterexample lives in: created at time 10, no
expenses, one activity at time 5. -/
def c3Store : Store :=
  { nextId := 0, nextCategoryId := 1
    groups := [{ id := "g", name := "n", currency := "$", currencyCode := none
                 information := none, createdAt := 10 }]
    participants := []
    expenses := []
    paidFors := []
    categories := []
    activities := [{ id := "a1", groupId := "g", time := 5, activityType := "UPDATE_GROUP"
                     participantId := none, expenseId := none, data := none }]
    documents := []
    recurringLinks := [] }

/-- The snapshot of the C3 counterexample: one expense dated 7. -/
def c3Json : JSONImportData :=
  { id := "g", name := "n", currency := "$", currencyCode := none
    expenses := [{ createdAt := 7, expenseDate := 7, title := "t", category := none
                   amount := 1, originalAmount := none, originalCurrency := none
                   conversionRate := none, paidById := "p", paidFor := []
                   isReimbursement := false, splitMode := "EVENLY", recurrenceRule := none }]
    participants := [{ id := "p", name := "P" }] }

/-! ## C4 -/
/-- The Difference Calculator as the claim words it: set difference on the
heuristic key (expense-date truncated to day, title).  Stated over the
existing expenses given as (day, title) keys, for comparison with
`calculateJSONDifferences` — which is in fact only handed the expense
date. -/
def claimedAddedExpenses (jsonData : JSONImportData)
    (existingKeys : List (Int × String)) : Nat :=
  (jsonData.expenses.filter
    (fun e => !existingKeys.contains (dayKey e.expenseDate, e.title))).length

/-- The C4 counterexample snapshot: one expense on day 0 titled "b". -/
def c4Json : JSONImportData :=
  { id := "g", name := "n", currency := "$", currencyCode := none
    expenses := [{ createdAt := 0, expenseDate := 0, title := "b", category := none
                   amount := 1, originalAmount := none, originalCurrency := none
                   conversionRate := none, paidById := "p", paidFor := []
                   isReimbursement := false, splitMode := "EVENLY", recurrenceRule := none }]
    participants := [] }

/-- The C4 counterexample live group: one expense on day 0 whose row is
titled "a". -/
def c4Existing : ExistingGroup :=
  { participants := []
    expenses := [{ id := "x", createdAt := 0, expenseDate := 0 }]
    activities := [] }

/-- Concrete store for the C8 witness: group `g` with one import marker at
time 5, one expense created before it and one at it. -/
def c8Store : Store :=
  { nextId := 0, nextCategoryId := 1
    groups := [{ id := "g", name := "n", currency := "$", currencyCode := none
                 information := none, createdAt := 0 }]
    participants := [{ id := "p", groupId := "g", name := "P" }]
    expenses :=
      [{ id := "e0", groupId := "g", expenseDate := 1, createdAt := 3, title := "old"
         categoryId := 0, amount := 1, originalAmount := none, originalCurrency := none
         conversionRate := none, paidById := "p", isReimbursement := false
         splitMode := "EVENLY", recurrenceRule := none, notes := none },
       { id := "e1", groupId := "g", expenseDate := 4, createdAt := 5, title := "new"
         categoryId := 0, amount := 2, originalAmount := none, originalCurrency := none
         conversionRate := none, paidById := "p", isReimbursement := false
         splitMode := "EVENLY", recurrenceRule := none, notes := none }]
    paidFors := [{ expenseId := "e0", participantId := "p", shares := 1 },
                 { expenseId := "e1", participantId := "p", shares := 1 }]
    categories := []
    activities :=
      [{ id := "a0", groupId := "g", time := 2, activityType := "CREATE_EXPENSE"
         participantId := none, expenseId := some "e0", data := none },
       { id := "m", groupId := "g", time := 5, activityType := "UPDATE_GROUP"
         participantId := none, expenseId := none
         data := some "JSON_IMPORT_START:update:1 expenses" }]
    documents := []
    recurringLinks := [] }

/-- C7 witness store: group `g` with participant `p` and one expense whose
(date, title) key matches the snapshot's first expense. -/
def c7Store : Store :=
  { nextId := 0, nextCategoryId := 1
    groups := [{ id := "g", name := "n", currency := "$", currencyCode := none
                 information := none, createdAt := 0 }]
    participants := [{ id := "p", groupId := "g", name := "P" }]
    expenses :=
      [{ id := "e0", groupId := "g", expenseDate := 100, createdAt := 1, title := "a"
         categoryId := 0, amount := 1, originalAmount := none, originalCurrency := none
         conversionRate := none, paidById := "p", isReimbursement := false
         splitMode := "EVENLY", recurrenceRule := none, notes := none }]
    paidFors := [{ expenseId := "e0", participantId := "p", shares := 1 }]
    categories := []
    activities := []
    documents := []
    recurringLinks := [] }

/-- C7 witness lightweight snapshot: two expenses, one already present by
pseudo-key, plus one new participant. -/
def c7Json : JSONImportData :=
  { id := "g", name := "n", currency := "$", currencyCode := none
    expenses :=
      [{ createdAt := 1, expenseDate := 100, title := "a", category := none
         amount := 1, originalAmount := none, originalCurrency := none
         conversionRate := none, paidById := "p"
         paidFor := [{ participantId := "p", shares := 1 }]
         isReimbursement := false, splitMode := "EVENLY", recurrenceRule := none },
       { createdAt := 2, expenseDate := 200, title := "b", category := none
         amount := 2, originalAmount := none, originalCurrency := none
         conversionRate := none, paidById := "q"
         paidFor := [{ participantId := "q", shares := 1 }]
         isReimbursement := false, splitMode := "EVENLY", recurrenceRule := none }]
    participants := [{ id := "p", name := "P" }, { id := "q", name := "Q" }] }

/-- C7 witness full-backup snapshot: one expense already present by id, one
new, plus one new participant. -/
def c7Backup : BackupData :=
  { version := "1", exportedAt := 50
    group := { id := "g", name := "n", information := none, currency := "$"
               currencyCode := none, createdAt := 0 }
    participants := [{ id := "p", name := "P" }, { id := "q", name := "Q" }]
    expenses :=
      [{ id := "e0", expenseDate := 100, createdAt := 1, title := "a", category := none
         amount := 1, originalAmount := none, originalCurrency := none
         conversionRate := none, paidById := "p"
         paidFor := [{ participantId := "p", shares := 1 }]
         isReimbursement := false, splitMode := "EVENLY", notes := none
         documents := [], recurrenceRule := none, recurringExpenseLink := none },
       { id := "e9", expenseDate := 200, createdAt := 2, title := "b", category := none
         amount := 2, originalAmount := none, originalCurrency := none
         conversionRate := none, paidById := "q"
         paidFor := [{ participantId := "q", shares := 1 }]
         isReimbursement := false, splitMode := "EVENLY", notes := none
         documents := [], recurrenceRule := none, recurringExpenseLink := none }]
    activities := [] }

/-! ## C1 -/
/-- A missing participant reference of snapshot `j` in expense `e`: `pid` is
the payer or one of the split participants, and is absent from the
snapshot's own participant list. -/
def jsonMissingRef (j : JSONImportData) (e : JSONExpense) (pid : String) : Prop :=
  (pid = e.paidById ∨ pid ∈ e.paidFor.map (·.participantId)) ∧
  pid ∉ j.participants.map (·.id)

def emptyStore : Store :=
  { nextId := 0, nextCategoryId := 1, groups := [], participants := [], expenses := []
    paidFors := [], categories := [], activities := [], documents := []
    recurringLinks := [] }

/-- The C1 witness snapshot's offending expense: paid by `p3`, who is not in
the participant list. -/
def c1BadExpense : JSONExpense :=
  { createdAt := 3, expenseDate := 3, title := "dinner", category := none
    amount := 9, originalAmount := none, originalCurrency := none
    conversionRate := none, paidById := "p3"
    paidFor := [{ participantId := "p1", shares := 1 }]
    isReimbursement := false, splitMode := "EVENLY", recurrenceRule := none }

/-- The C1 witness lightweight snapshot: two participants, one expense paid
by a third, nonexistent participant. -/
def c1Json : JSONImportData :=
  { id := "g", name := "n", currency := "$", currencyCode := none
    expenses := [c1BadExpense]
    participants := [{ id := "p1", name := "A" }, { id := "p2", name := "B" }] }

/-- The C1 counterexample backup snapshot: two participants, one expense
paid by a third, nonexistent participant `ghost`. -/
def c1Backup : BackupData :=
  { version := "1", exportedAt := 5
    group := { id := "g", name := "n", information := none, currency := "$"
               currencyCode := none, createdAt := 0 }
    participants := [{ id := "p1", name := "A" }, { id := "p2", name := "B" }]
    expenses :=
      [{ id := "e1", expenseDate := 3, createdAt := 3, title := "bad", category := none
         amount := 9, originalAmount := none, originalCurrency := none
         conversionRate := none, paidById := "ghost"
         paidFor := [{ participantId := "ghost", shares := 1 }]
         isReimbursement := false, splitMode := "EVENLY", notes := none
         documents := [], recurrenceRule := none, recurringExpenseLink := none }]
    activities := [] }

/-- The C5 counterexample backup snapshot: one expense with stable id
`e1`. -/
def c5Backup : BackupData :=
  { version := "1", exportedAt := 50
    group := { id := "g", name := "n", information := none, currency := "$"
               currencyCode := none, createdAt := 0 }
    participants := [{ id := "p", name := "P" }]
    expenses :=
      [{ id := "e1", expenseDate := 10, createdAt := 10, title := "x", category := none
         amount := 4, originalAmount := none, originalCurrency := none
         conversionRate := none, paidById := "p"
         paidFor := [{ participantId := "p", shares := 1 }]
         isReimbursement := false, splitMode := "EVENLY", notes := none
         documents := [], recurrenceRule := none, recurringExpenseLink := none }]
    activities := [] }

/-- The C5 counterexample live store: the group exists with its participant
but no expenses. -/
def c5Store : Store :=
  { nextId := 0, nextCategoryId := 1
    groups := [{ id := "g", name := "n", currency := "$", currencyCode := none
                 information := none, createdAt := 0 }]
    participants := [{ id := "p", groupId := "g", name := "P" }]
    expenses := [], paidFors := [], categories := [], activities := []
    documents := [], recurringLinks := [] }

/-- The C5 counterexample lightweight snapshot: one valid expense (the
format carries no expense identifiers at all). -/
def c5Json : JSONImportData :=
  { id := "g2", name := "n2", currency := "$", currencyCode := none
    expenses := [{ createdAt := 0, expenseDate := 1, title := "y", category := none
                   amount := 2, originalAmount := none, originalCurrency := none
                   conversionRate := none, paidById := "q"
                   paidFor := [{ participantId := "q", shares := 1 }]
                   isReimbursement := false, splitMode := "EVENLY", recurrenceRule := none }]
    participants := [{ id := "q", name := "Q" }] }

/-! ## Helper lemmas -/
/-- The `max?` of an `Int` list characterised as the greatest element. -/
theorem intMax?_eq_some_iff {xs : List Int} {a : Int} :
    xs.max? = some a ↔ a ∈ xs ∧ ∀ b ∈ xs, b ≤ a := by
  have inst : Std.Antisymm (fun (x1 x2 : Int) => x1 ≤ x2) :=
    ⟨fun h h' => le_antisymm h h'⟩
  exact List.max?_eq_some_iff Int.le_refl max_choice (fun _ _ _ => max_le_iff)

/-- Filtering the image of a map has the same length as filtering through the
map. -/
theorem length_filter_of_map {α β : Type} (f : α → β) (p : β → Bool) (l : List α) :
    ((l.map f).filter p).length = (l.filter (fun a => p (f a))).length := by
  induction l with
  | nil => rfl
  | cons a l ih =>
      simp only [List.map_cons, List.filter_cons]
      cases p (f a) <;> simp [ih]

/-- A substring occurs verbatim inside the concatenation around it. -/
theorem strContains_append (pre sub post : String) :
    sub.data <:+: (pre ++ sub ++ post).data := by
  refine ⟨pre.data, post.data, ?_⟩
  simp [String.data_append]

/-! ## C2 -/
/-- C2: for every snapshot and live-group summary, each comparator
returns `NEWER` iff the snapshot's effective timestamp is strictly greater
than the live group's last-modified timestamp (as that comparator computes
it), `OLDER` iff strictly less, `SAME` iff equal, and `NOT_FOUND` iff the
live group is absent — for both `compareJSONVersions` and
`compareVersions`. -/
theorem compare_classification_trichotomy :
    (∀ (j : JSONImportData) (og : Option ExistingGroup),
      ((compareJSONVersions j og).result = .NOT_FOUND ↔ og = none) ∧
      ((compareJSONVersions j og).result = .NEWER ↔
        ∃ g, og = some g ∧ jsonLiveLastModified g < jsonSnapshotTime j) ∧
      ((compareJSONVersions j og).result = .OLDER ↔
        ∃ g, og = some g ∧ jsonSnapshotTime j < jsonLiveLastModified g) ∧
      ((compareJSONVersions j og).result = .SAME ↔
        ∃ g, og = some g ∧ jsonSnapshotTime j = jsonLiveLastModified g)) ∧
    (∀ (b : BackupData) (og : Option BackupExistingGroup),
      ((compareVersions b og).result = .NOT_FOUND ↔ og = none) ∧
      ((compareVersions b og).result = .NEWER ↔
        ∃ g, og = some g ∧ backupLiveLastModified g < b.exportedAt) ∧
      ((compareVersions b og).result = .OLDER ↔
        ∃ g, og = some g ∧ b.exportedAt < backupLiveLastModified g) ∧
      ((compareVersions b og).result = .SAME ↔
        ∃ g, og = some g ∧ b.exportedAt = backupLiveLastModified g)) := by
  constructor
  · intro j og
    cases og with
    | none => simp [compareJSONVersions]
    | some g =>
        simp only [compareJSONVersions]
        split_ifs with h1 h2 <;>
          simp_all <;> omega
  · intro b og
    cases og with
    | none => simp [compareVersions]
    | some g =>
        simp only [compareVersions]
        split_ifs with h1 h2 <;>
          simp_all <;> omega

/-! ## C6 -/
/-- C6: for the `restore`/`rollback` actions both import handlers derive
the restore mode as: `NOT_FOUND` yields create; otherwise an explicit
rollback action yields rollback; otherwise `NEWER` yields update; otherwise
the request is rejected with the 400 message instructing the caller to use
rollback, the store untouched and the Restore Engine not invoked. -/
theorem import_mode_derivation (r : VersionComparisonResult) (a : ImportAction)
    (ha : a = .restore ∨ a = .rollback) :
    (deriveRestoreMode r a = some .create ↔ r = .NOT_FOUND) ∧
    (deriveRestoreMode r a = some .rollback ↔ r ≠ .NOT_FOUND ∧ a = .rollback) ∧
    (deriveRestoreMode r a = some .update ↔
      r ≠ .NOT_FOUND ∧ a ≠ .rollback ∧ r = .NEWER) ∧
    (deriveRestoreMode r a = none ↔
      r ≠ .NOT_FOUND ∧ a ≠ .rollback ∧ r ≠ .NEWER) ∧
    (∀ (j : JSONImportData) (t : Int) (s : Store),
      deriveRestoreMode (compareJSONVersions j (fetchExistingGroupJSON s j.id)).result a = none →
      handleJSONImport j a t s = (s, .badRequest jsonNotNewerMsg)) ∧
    (∀ (u : String → Bool) (b : BackupData) (s : Store),
      deriveRestoreMode (compareVersions b (fetchExistingGroupBackup s b.group.id)).result a = none →
      handleBackupImport u b a s = (s, .badRequest backupNotNewerMsg)) := by
  refine ⟨?_, ?_, ?_, ?_, ?_, ?_⟩
  · rcases ha with rfl | rfl <;> cases r <;> decide
  · rcases ha with rfl | rfl <;> cases r <;> decide
  · rcases ha with rfl | rfl <;> cases r <;> decide
  · rcases ha with rfl | rfl <;> cases r <;> decide
  · intro j t s h
    rcases ha with rfl | rfl <;> simp [handleJSONImport, h]
  · intro u b s h
    rcases ha with rfl | rfl <;> simp [handleBackupImport, h]

/-- Witness for C6 at `r = SAME`, `a = restore`: the request is rejected. -/
theorem import_mode_derivation_witness :
    deriveRestoreMode .SAME .restore = none :=
  (import_mode_derivation .SAME .restore (Or.inl rfl)).2.2.2.1.mpr (by decide)

/-! ## C9 -/
/-- C9: role-reversal identity of the identifier-based Difference
Calculator: `addedExpenses` with A as snapshot and B live equals
`removedExpenses` with B as snapshot and A live, and likewise for
participants. -/
theorem calculateDifferences_role_reversal (A B : BackupData) :
    (calculateDifferences A (backupAsLive B)).addedExpenses =
      (calculateDifferences B (backupAsLive A)).removedExpenses ∧
    (calculateDifferences A (backupAsLive B)).addedParticipants =
      (calculateDifferences B (backupAsLive A)).removedParticipants := by
  constructor
  · simp only [calculateDifferences, backupAsLive, List.map_map]
    rw [length_filter_of_map]
    rfl
  · simp only [calculateDifferences, backupAsLive, List.map_map]
    rw [length_filter_of_map]
    rfl

/-! ## C10 -/
@[simp] theorem exceptOk_bind {ε σ τ : Type} (s : σ) (f : σ → Except ε τ) :
    (Except.ok s >>= f) = f s := rfl

@[simp] theorem exceptError_bind {ε σ τ : Type} (e : ε) (f : σ → Except ε τ) :
    ((Except.error e : Except ε σ) >>= f) = .error e := rfl

@[simp] theorem exceptOk_isOk {ε σ : Type} (s : σ) :
    (Except.ok s : Except ε σ).isOk = true := rfl

@[simp] theorem exceptError_isOk {ε σ : Type} (e : ε) :
    (Except.error e : Except ε σ).isOk = false := rfl

@[simp] theorem all_comp_map {α β : Type} (f : α → β) (p : β → Bool) (l : List α) :
    (l.map f).all p = l.all (fun a => p (f a)) := by
  induction l <;> simp_all

theorem jsonExpenseBad_eq_sig (ids : List String) (e : JSONExpense) :
    jsonExpenseBad ids e = jsonSigBad ids (expenseSig e) := rfl

/-- Success of the create-mode expense loop is exactly the absence of a
rejected expense. -/
theorem jsonCreateFold_isOk (ids : List String) (gid : String) (t : Int) :
    ∀ (l : List JSONExpense) (s : Store),
      (l.foldlM (jsonCreateStep ids gid t) s).isOk =
        l.all (fun e => !jsonExpenseBad ids e) := by
  intro l
  induction l with
  | nil => intro s; rfl
  | cons e l ih =>
      intro s
      rw [List.foldlM_cons]
      cases hb : ids.contains e.paidById with
      | false =>
          simp only [jsonCreateStep, jsonExpenseBad, hb, Bool.not_false, if_pos,
            List.all_cons, Bool.true_or, Bool.not_true, Bool.false_and]
          rfl
      | true =>
          rcases hf : e.paidFor.find? (fun pf => !ids.contains pf.participantId) with _ | pf
          · simp only [jsonCreateStep, jsonExpenseBad, hb, Bool.not_true,
              Bool.false_eq_true, if_false, hf, Option.isSome_none, Bool.or_self,
              List.all_cons]
            simp only [bind, Except.bind]
            rw [ih]
            rfl
          · simp only [jsonCreateStep, jsonExpenseBad, hb, Bool.not_true,
              Bool.false_eq_true, if_false, hf, Option.isSome_some, Bool.false_or,
              List.all_cons]
            rfl

/-- Success of the rollback-mode expense loop. -/
theorem jsonRollbackFold_isOk (ids : List String) (gid : String) (t : Int) :
    ∀ (l : List JSONExpense) (s : Store),
      (l.foldlM (jsonRollbackStep ids gid t) s).isOk =
        l.all (fun e => !jsonExpenseBad ids e) := by
  intro l
  induction l with
  | nil => intro s; rfl
  | cons e l ih =>
      intro s
      rw [List.foldlM_cons]
      cases hb : ids.contains e.paidById with
      | false =>
          simp only [jsonRollbackStep, jsonExpenseBad, hb, Bool.not_false, if_pos,
            List.all_cons, Bool.true_or, Bool.not_true, Bool.false_and]
          rfl
      | true =>
          rcases hf : e.paidFor.find? (fun pf => !ids.contains pf.participantId) with _ | pf
          · simp only [jsonRollbackStep, jsonExpenseBad, hb, Bool.not_true,
              Bool.false_eq_true, if_false, hf, Option.isSome_none, Bool.or_self,
              List.all_cons]
            simp only [bind, Except.bind]
            rw [ih]
            rfl
          · simp only [jsonRollbackStep, jsonExpenseBad, hb, Bool.not_true,
              Bool.false_eq_true, if_false, hf, Option.isSome_some, Bool.false_or,
              List.all_cons]
            rfl

/-- Success of the update-mode expense loop: each expense is either skipped
by pseudo-key or passes validation. -/
theorem jsonUpdateFold_isOk (ids : List String) (keys : List (Int × String))
    (gid : String) (t : Int) :
    ∀ (l : List JSONExpense) (s : Store),
      (l.foldlM (jsonUpdateStep ids keys gid t) s).isOk =
        l.all (fun e => keys.contains (e.expenseDate, e.title) || !jsonExpenseBad ids e) := by
  intro l
  induction l with
  | nil => intro s; rfl
  | cons e l ih =>
      intro s
      rw [List.foldlM_cons]
      cases hk : keys.contains (e.expenseDate, e.title) with
      | true =>
          simp only [jsonUpdateStep, hk, if_pos, List.all_cons, Bool.true_or]
          simp only [bind, Except.bind]
          rw [ih]
          rfl
      | false =>
          cases hb : ids.contains e.paidById with
          | false =>
              simp only [jsonUpdateStep, jsonExpenseBad, hk, hb, Bool.not_false, if_pos,
                Bool.false_eq_true, if_false, List.all_cons, Bool.true_or, Bool.not_true,
                Bool.false_and, Bool.false_or]
              rfl
          | true =>
              rcases hf : e.paidFor.find? (fun pf => !ids.contains pf.participantId) with _ | pf
              · simp only [jsonUpdateStep, jsonExpenseBad, hk, hb, Bool.not_true,
                  Bool.false_eq_true, if_false, hf, Option.isSome_none, Bool.or_self,
                  List.all_cons, Bool.false_or]
                simp only [bind, Except.bind]
                rw [ih]
                rfl
              · simp only [jsonUpdateStep, jsonExpenseBad, hk, hb, Bool.not_true,
                  Bool.false_eq_true, if_false, hf, Option.isSome_some, Bool.false_or,
                  List.all_cons]
                rfl

/-- The id-threading of the update-mode participant loop does not depend on
the store component of the accumulator. -/
theorem participantFold_snd (gid : String) :
    ∀ (l : List JSONParticipant) (s : Store) (ids : List String),
      (l.foldl (jsonParticipantStep gid) (s, ids)).2 =
      l.foldl (fun ids p => if ids.contains p.id then ids else ids ++ [p.id]) ids := by
  intro l
  induction l with
  | nil => intro s ids; rfl
  | cons p l ih =>
      intro s ids
      rw [List.foldl_cons, List.foldl_cons]
      simp only [jsonParticipantStep]
      cases h : ids.contains p.id with
      | true => simp only [h, if_pos]; exact ih s ids
      | false => simp only [h, Bool.false_eq_true, if_false]; exact ih _ (ids ++ [p.id])

/-- C10: the lightweight-format split-mode and recurrence-rule mappings
are total: any value other than the three named split modes maps to
`EVENLY`, any value other than the three named recurrence rules (including
`null`) maps to `NONE`; consequently the success of a lightweight restore is
invariant under arbitrary changes of the `splitMode`/`recurrenceRule`
strings (it depends only on the id, the participants, and the
validation-relevant expense fields), so no expense is ever rejected on
account of an unrecognized `splitMode` or `recurrenceRule`. -/
theorem mapSplitMode_recurrence_total_never_reject :
    (∀ v : String, v ≠ "BY_SHARES" → v ≠ "BY_PERCENTAGE" → v ≠ "BY_AMOUNT" →
      mapSplitMode v = .EVENLY) ∧
    (∀ v : Option String, v ≠ some "DAILY" → v ≠ some "WEEKLY" → v ≠ some "MONTHLY" →
      mapRecurrenceRule v = .NONE) ∧
    (∀ (j1 j2 : JSONImportData) (mode : RestoreMode) (t : Int) (s : Store),
      j1.id = j2.id → j1.participants = j2.participants →
      j1.expenses.map expenseSig = j2.expenses.map expenseSig →
      (restoreGroupFromJSON j1 mode t s).isOk = (restoreGroupFromJSON j2 mode t s).isOk) := by
  refine ⟨?_, ?_, ?_⟩
  · intro v h1 h2 h3
    simp only [mapSplitMode, if_neg h1, if_neg h2, if_neg h3]
  · intro v h1 h2 h3
    unfold mapRecurrenceRule
    split <;> simp_all
  · intro j1 j2 mode t s hid hp hs
    have key : ∀ p : Int × String × String × List JSONPaidFor → Bool,
        j1.expenses.all (fun e => p (expenseSig e)) =
          j2.expenses.all (fun e => p (expenseSig e)) := by
      intro p
      rw [← all_comp_map expenseSig p j1.expenses, ← all_comp_map expenseSig p j2.expenses, hs]
    have hall : ∀ ids : List String,
        j1.expenses.all (fun e => !jsonExpenseBad ids e) =
          j2.expenses.all (fun e => !jsonExpenseBad ids e) :=
      fun ids => key (fun g => !jsonSigBad ids g)
    have hallU : ∀ (ids : List String) (keys : List (Int × String)),
        j1.expenses.all
            (fun e => keys.contains (e.expenseDate, e.title) || !jsonExpenseBad ids e) =
          j2.expenses.all
            (fun e => keys.contains (e.expenseDate, e.title) || !jsonExpenseBad ids e) :=
      fun ids keys => key (fun g => keys.contains (g.1, g.2.1) || !jsonSigBad ids g)
    cases mode with
    | create =>
        simp only [restoreGroupFromJSON]
        rw [jsonCreateFold_isOk, jsonCreateFold_isOk, hp]
        exact hall _
    | update =>
        simp only [restoreGroupFromJSON]
        rw [← hid, ← hp]
        cases hfind : s.groups.find? (fun g => g.id == j1.id) with
        | none => rfl
        | some g =>
            rw [jsonUpdateFold_isOk, jsonUpdateFold_isOk,
              participantFold_snd, participantFold_snd]
            exact hallU _ _
    | rollback =>
        simp only [restoreGroupFromJSON]
        rw [← hid, ← hp]
        cases hfind : s.groups.find? (fun g => g.id == j1.id) with
        | none => rfl
        | some g =>
            rw [jsonRollbackFold_isOk, jsonRollbackFold_isOk]
            exact hall _

/-- Witness for C10 at concrete values: an unknown split mode maps to
`EVENLY`, an unknown recurrence rule to `NONE`, and two one-expense
snapshots differing only in those two fields restore with equal success. -/
theorem mapSplitMode_recurrence_total_never_reject_witness :
    mapSplitMode "SOMETHING_ELSE" = .EVENLY ∧
    mapRecurrenceRule (some "YEARLY") = .NONE ∧
    (restoreGroupFromJSON
        { id := "g", name := "n", currency := "$", currencyCode := none
          expenses := [{ createdAt := 0, expenseDate := 1, title := "t", category := none
                         amount := 5, originalAmount := none, originalCurrency := none
                         conversionRate := none, paidById := "p"
                         paidFor := [{ participantId := "p", shares := 1 }]
                         isReimbursement := false, splitMode := "SOMETHING_ELSE"
                         recurrenceRule := some "YEARLY" }]
          participants := [{ id := "p", name := "P" }] }
        .create 0
        { nextId := 0, nextCategoryId := 1, groups := [], participants := []
          expenses := [], paidFors := [], categories := [], activities := []
          documents := [], recurringLinks := [] }).isOk =
      (restoreGroupFromJSON
        { id := "g", name := "n", currency := "$", currencyCode := none
          expenses := [{ createdAt := 0, expenseDate := 1, title := "t", category := none
                         amount := 5, originalAmount := none, originalCurrency := none
                         conversionRate := none, paidById := "p"
                         paidFor := [{ participantId := "p", shares := 1 }]
                         isReimbursement := false, splitMode := "EVENLY"
                         recurrenceRule := none }]
          participants := [{ id := "p", name := "P" }] }
        .create 0
        { nextId := 0, nextCategoryId := 1, groups := [], participants := []
          expenses := [], paidFors := [], categories := [], activities := []
          documents := [], recurringLinks := [] }).isOk := by
  refine ⟨?_, ?_, ?_⟩
  · exact (mapSplitMode_recurrence_total_never_reject).1 "SOMETHING_ELSE"
      (by decide) (by decide) (by decide)
  · exact (mapSplitMode_recurrence_total_never_reject).2.1 (some "YEARLY")
      (by decide) (by decide) (by decide)
  · exact (mapSplitMode_recurrence_total_never_reject).2.2 _ _ .create 0 _
      rfl rfl (by decide)

/-- The `max?` of an appended pair of `Int` lists, eliminated into `getD 0`. -/
theorem intMax?_append_getD (l1 l2 : List Int) :
    ((l1 ++ l2).max?).getD 0 =
      match l1.max?, l2.max? with
      | some e, some a => max e a
      | some e, none => e
      | none, some a => a
      | none, none => 0 := by
  rcases h1 : l1.max? with _ | e <;> rcases h2 : l2.max? with _ | a
  · rw [List.max?_eq_none_iff.mp h1, List.max?_eq_none_iff.mp h2]
    rfl
  · rw [List.max?_eq_none_iff.mp h1]
    simp [h2]
  · rw [List.max?_eq_none_iff.mp h2]
    simp [h1]
  · have he := intMax?_eq_some_iff.mp h1
    have ha := intMax?_eq_some_iff.mp h2
    have : (l1 ++ l2).max? = some (max e a) := by
      rw [intMax?_eq_some_iff]
      constructor
      · rcases max_choice e a with h | h <;> rw [h]
        · exact List.mem_append_left _ he.1
        · exact List.mem_append_right _ ha.1
      · intro b hb
        rcases List.mem_append.mp hb with hb | hb
        · exact le_trans (he.2 b hb) (le_max_left e a)
        · exact le_trans (ha.2 b hb) (le_max_right e a)
    simp [this]

/-- C3 counterexample: on a live group created at time 10 with no
expenses and one activity at time 5, `compareJSONVersions` takes the live
last-modified time to be 5 — the claimed fallback to the group's creation
timestamp would give 10 — and therefore classifies a snapshot dated 7 as
NEWER although 7 is below the claimed last-modified time. -/
theorem compareJSON_ignores_creation_time :
    (compareJSONVersions c3Json (fetchExistingGroupJSON c3Store "g")).existingGroupUpdatedAt
        = some 5 ∧
    claimLastModified 10 [] [5] = 10 ∧
    jsonSnapshotTime c3Json = 7 ∧
    (compareJSONVersions c3Json (fetchExistingGroupJSON c3Store "g")).result = .NEWER ∧
    ((7 : Int) < 10) := by
  refine ⟨?_, ?_, ?_, ?_, by decide⟩ <;> decide

/-- C3 amended: `compareVersions` computes the live last-modified time
with the per-set creation-timestamp fallback the claim describes;
`compareJSONVersions`, however, never sees the creation timestamp: its live
last-modified time is the maximum over the expense dates and activity times
together, and only when both sets are empty does it fall back — to the epoch
(time 0), not the creation timestamp.  When the live group is absent, the
snapshot effective timestamp is the maximum expense date (epoch fallback)
for the lightweight format and the stored export timestamp for the
full-backup format. -/
theorem compare_lastModified_computation :
    (∀ (b : BackupData) (g : BackupExistingGroup),
      (compareVersions b (some g)).existingGroupUpdatedAt =
        some (claimLastModified g.createdAt g.expenses g.activities)) ∧
    (∀ (j : JSONImportData) (g : ExistingGroup),
      (compareJSONVersions j (some g)).existingGroupUpdatedAt =
        some ((((g.expenses.map (·.expenseDate)) ++ g.activities).max?).getD 0)) ∧
    (∀ j : JSONImportData,
      (compareJSONVersions j none).result = .NOT_FOUND ∧
      (compareJSONVersions j none).jsonExportedAt =
        ((j.expenses.map (·.expenseDate)).max?).getD 0) ∧
    (∀ b : BackupData,
      (compareVersions b none).result = .NOT_FOUND ∧
      (compareVersions b none).backupExportedAt = b.exportedAt) := by
  refine ⟨?_, ?_, fun j => ⟨rfl, rfl⟩, fun b => ⟨rfl, rfl⟩⟩
  · intro b g
    simp only [compareVersions]
    split_ifs <;> rfl
  · intro j g
    have hobj : jsonLiveLastModified g =
        (((g.expenses.map (·.expenseDate)) ++ g.activities).max?).getD 0 := by
      rw [intMax?_append_getD]
      rfl
    simp only [compareJSONVersions]
    split_ifs <;> simp [hobj]

/-- C4 counterexample: a snapshot expense on the same day as a live
expense but with a different title: the claimed (day, title) key makes it an
added expense, but the code compares days only and reports 0 added and 0
removed. -/
theorem calculateJSONDifferences_title_blind :
    calculateJSONDifferences c4Json c4Existing =
      { addedExpenses := 0, removedExpenses := 0, modifiedExpenses := 0
        addedParticipants := 0, removedParticipants := 0 } ∧
    claimedAddedExpenses c4Json [(0, "a")] = 1 := by
  constructor <;> decide

/-- C4 amended: the lightweight Difference Calculator computes
added/removed expenses by set difference on the day key alone — retitling
every snapshot expense never changes its output — and always reports
`modifiedExpenses` as 0. -/
theorem calculateJSONDifferences_day_key :
    (∀ (j : JSONImportData) (g : ExistingGroup) (f : String → String),
      calculateJSONDifferences
          { j with expenses := j.expenses.map (fun e => { e with title := f e.title }) } g =
        calculateJSONDifferences j g) ∧
    (∀ (j : JSONImportData) (g : ExistingGroup),
      (calculateJSONDifferences j g).modifiedExpenses = 0 ∧
      (calculateJSONDifferences j g).addedExpenses =
        (j.expenses.filter (fun e =>
          !(g.expenses.map (fun x => dayKey x.expenseDate)).contains
            (dayKey e.expenseDate))).length ∧
      (calculateJSONDifferences j g).removedExpenses =
        (g.expenses.filter (fun e =>
          !(j.expenses.map (fun x => dayKey x.expenseDate)).contains
            (dayKey e.expenseDate))).length) := by
  constructor
  · intro j g f
    simp only [calculateJSONDifferences, List.map_map]
    congr 1
    rw [length_filter_of_map]
  · intro j g
    exact ⟨rfl, rfl, rfl⟩

/-! ## C8 -/
/-- A list does not contain an element iff `contains` computes `false`. -/
theorem contains_false_iff {α : Type} [BEq α] [LawfulBEq α] (l : List α) (a : α) :
    l.contains a = false ↔ a ∉ l := by
  rw [← Bool.not_eq_true]
  exact not_congr List.elem_iff

/-- C8: for a group with at least one import-marker activity, the undo
operation locates the most recent marker (an activity of the group whose
payload starts with the import-marker prefix, of maximal time `t`) and
deletes exactly the group's expense rows created at-or-after `t`, the
paidFor rows of those expenses, and the group's activities timestamped
at-or-after `t`; participants (and groups and categories) are left
unchanged. -/
theorem undoLastImport_spec (gid : String) (s : Store)
    (hg : (s.groups.find? (fun g => g.id == gid)).isSome = true)
    (hm : groupImportMarkers gid s ≠ []) :
    ∃ t : Int,
      (∃ m ∈ s.activities, m.groupId = gid ∧
        importMarkerPrefix.data.isPrefixOf (m.data.getD "").data = true ∧ m.time = t) ∧
      (∀ m ∈ groupImportMarkers gid s, m.time ≤ t) ∧
      (undoLastImport gid s).2 = .success ∧
      (undoLastImport gid s).1.participants = s.participants ∧
      (undoLastImport gid s).1.groups = s.groups ∧
      (undoLastImport gid s).1.categories = s.categories ∧
      (∀ e : ExpenseRow, e ∈ (undoLastImport gid s).1.expenses ↔
        e ∈ s.expenses ∧ ¬ (e.groupId = gid ∧ t ≤ e.createdAt)) ∧
      (∀ a : ActivityRow, a ∈ (undoLastImport gid s).1.activities ↔
        a ∈ s.activities ∧ ¬ (a.groupId = gid ∧ t ≤ a.time)) ∧
      (∀ pf : PaidForRow, pf ∈ (undoLastImport gid s).1.paidFors ↔
        pf ∈ s.paidFors ∧
          ¬ ∃ e ∈ s.expenses, e.id = pf.expenseId ∧ e.groupId = gid ∧ t ≤ e.createdAt) := by
  rcases Option.isSome_iff_exists.mp hg with ⟨g, hgeq⟩
  rcases hmax : ((groupImportMarkers gid s).map (·.time)).max? with _ | t
  · exact absurd (by simpa using List.max?_eq_none_iff.mp hmax) hm
  · have hmem := (intMax?_eq_some_iff.mp hmax).1
    have hbound := (intMax?_eq_some_iff.mp hmax).2
    rcases List.mem_map.mp hmem with ⟨m, hmMem, hmTime⟩
    have hmProps := List.mem_filter.mp hmMem
    refine ⟨t, ⟨m, hmProps.1, ?_, ?_, hmTime⟩, ?_, ?_, ?_, ?_, ?_, ?_, ?_, ?_⟩
    · exact eq_of_beq (Bool.and_elim_left hmProps.2)
    · exact Bool.and_elim_right hmProps.2
    · intro m' hm'
      exact hbound m'.time (List.mem_map.mpr ⟨m', hm', rfl⟩)
    · simp [undoLastImport, hgeq, hmax]
    · simp [undoLastImport, hgeq, hmax]
    · simp [undoLastImport, hgeq, hmax]
    · simp [undoLastImport, hgeq, hmax]
    · intro e
      simp only [undoLastImport, hgeq, Option.isNone_some, Bool.false_eq_true, if_false,
        hmax, List.mem_filter]
      simp
      tauto
    · intro a
      simp only [undoLastImport, hgeq, Option.isNone_some, Bool.false_eq_true, if_false,
        hmax, List.mem_filter]
      simp
      tauto
    · intro pf
      simp only [undoLastImport, hgeq, Option.isNone_some, Bool.false_eq_true, if_false,
        hmax, List.mem_filter, Bool.not_eq_true']
      constructor
      · rintro ⟨hmem', hkeep⟩
        refine ⟨hmem', ?_⟩
        rintro ⟨e, heMem, heId, heGid, heT⟩
        exact (contains_false_iff _ _).mp hkeep (List.mem_map.mpr
          ⟨e, List.mem_filter.mpr ⟨heMem, by simp [heGid, heT]⟩, heId⟩)
      · rintro ⟨hmem', hnone⟩
        refine ⟨hmem', (contains_false_iff _ _).mpr ?_⟩
        intro hcontra
        rcases List.mem_map.mp hcontra with ⟨e, heF, heId⟩
        have hef := List.mem_filter.mp heF
        refine hnone ⟨e, hef.1, heId, ?_, ?_⟩
        · exact eq_of_beq (Bool.and_elim_left hef.2)
        · simpa using Bool.and_elim_right hef.2

set_option maxRecDepth 4096 in
/-- Witness for C8: the undo theorem applied to `c8Store`. -/
theorem undoLastImport_spec_witness :
    ∃ t : Int,
      (∃ m ∈ c8Store.activities, m.groupId = "g" ∧
        importMarkerPrefix.data.isPrefixOf (m.data.getD "").data = true ∧ m.time = t) ∧
      (∀ m ∈ groupImportMarkers "g" c8Store, m.time ≤ t) ∧
      (undoLastImport "g" c8Store).2 = .success ∧
      (undoLastImport "g" c8Store).1.participants = c8Store.participants ∧
      (undoLastImport "g" c8Store).1.groups = c8Store.groups ∧
      (undoLastImport "g" c8Store).1.categories = c8Store.categories ∧
      (∀ e : ExpenseRow, e ∈ (undoLastImport "g" c8Store).1.expenses ↔
        e ∈ c8Store.expenses ∧ ¬ (e.groupId = "g" ∧ t ≤ e.createdAt)) ∧
      (∀ a : ActivityRow, a ∈ (undoLastImport "g" c8Store).1.activities ↔
        a ∈ c8Store.activities ∧ ¬ (a.groupId = "g" ∧ t ≤ a.time)) ∧
      (∀ pf : PaidForRow, pf ∈ (undoLastImport "g" c8Store).1.paidFors ↔
        pf ∈ c8Store.paidFors ∧
          ¬ ∃ e ∈ c8Store.expenses, e.id = pf.expenseId ∧ e.groupId = "g" ∧ t ≤ e.createdAt) :=
  undoLastImport_spec "g" c8Store (by decide) (by decide)

/-! ## Structural lemmas about the JSON restore -/
/-- The `contains` test computes membership. -/
theorem contains_true_iff {α : Type} [BEq α] [LawfulBEq α] (l : List α) (a : α) :
    l.contains a = true ↔ a ∈ l :=
  List.elem_iff

theorem resolveCategory_fields (g n : String) (s : Store) :
    (resolveCategory g n s).1.nextId = s.nextId ∧
    (resolveCategory g n s).1.groups = s.groups ∧
    (resolveCategory g n s).1.participants = s.participants ∧
    (resolveCategory g n s).1.expenses = s.expenses ∧
    (resolveCategory g n s).1.paidFors = s.paidFors ∧
    (resolveCategory g n s).1.activities = s.activities := by
  cases hf : s.categories.find? (fun c => c.grouping == g && c.name == n) <;>
    simp [resolveCategory, hf]

theorem jsonCategoryResult_fields (e : JSONExpense) (s : Store) :
    (jsonCategoryResult e s).1.nextId = s.nextId ∧
    (jsonCategoryResult e s).1.groups = s.groups ∧
    (jsonCategoryResult e s).1.participants = s.participants ∧
    (jsonCategoryResult e s).1.expenses = s.expenses ∧
    (jsonCategoryResult e s).1.paidFors = s.paidFors ∧
    (jsonCategoryResult e s).1.activities = s.activities := by
  cases hc : e.category with
  | none => simp [jsonCategoryResult, hc]
  | some c => simpa [jsonCategoryResult, hc] using resolveCategory_fields c.grouping c.name s

/-- The store after one lightweight expense insertion: participants and
groups untouched, exactly one expense row appended — a fresh-uuid row
carrying the snapshot expense's date and title. -/
theorem createJSONExpense_fields (gid : String) (t : Int) (e : JSONExpense) (s : Store) :
    (createJSONExpense gid t e s).participants = s.participants ∧
    (createJSONExpense gid t e s).groups = s.groups ∧
    (createJSONExpense gid t e s).expenses =
      s.expenses ++ [jsonExpenseRow gid t e s.nextId (jsonCategoryResult e s).2] := by
  obtain ⟨h1, h2, h3, h4, h5, h6⟩ := jsonCategoryResult_fields e s
  exact ⟨by simp [createJSONExpense, h3], by simp [createJSONExpense, h2],
    by simp [createJSONExpense, h1, h4]⟩

/-- Generic shape of the three per-expense loop bodies: skip, insert, or
error. -/
theorem jsonCreateStep_cases (ids : List String) (gid : String) (t : Int)
    (s : Store) (e : JSONExpense) :
    jsonCreateStep ids gid t s e = .ok (createJSONExpense gid t e s) ∨
    ∃ msg, jsonCreateStep ids gid t s e = .error msg := by
  unfold jsonCreateStep
  by_cases hb : (!ids.contains e.paidById) = true
  · rw [if_pos hb]
    exact Or.inr ⟨_, rfl⟩
  · rw [if_neg hb]
    rcases hf : e.paidFor.find? (fun pf => !ids.contains pf.participantId) with _ | pf
    · rw [hf]
      exact Or.inl rfl
    · rw [hf]
      exact Or.inr ⟨_, rfl⟩

theorem jsonRollbackStep_cases (ids : List String) (gid : String) (t : Int)
    (s : Store) (e : JSONExpense) :
    jsonRollbackStep ids gid t s e = .ok (createJSONExpense gid t e s) ∨
    ∃ msg, jsonRollbackStep ids gid t s e = .error msg := by
  unfold jsonRollbackStep
  by_cases hb : (!ids.contains e.paidById) = true
  · rw [if_pos hb]
    exact Or.inr ⟨_, rfl⟩
  · rw [if_neg hb]
    rcases hf : e.paidFor.find? (fun pf => !ids.contains pf.participantId) with _ | pf
    · rw [hf]
      exact Or.inl rfl
    · rw [hf]
      exact Or.inr ⟨_, rfl⟩

theorem jsonUpdateStep_cases (ids : List String) (keys : List (Int × String))
    (gid : String) (t : Int) (s : Store) (e : JSONExpense) :
    jsonUpdateStep ids keys gid t s e = .ok s ∨
    jsonUpdateStep ids keys gid t s e = .ok (createJSONExpense gid t e s) ∨
    ∃ msg, jsonUpdateStep ids keys gid t s e = .error msg := by
  unfold jsonUpdateStep
  by_cases hk : keys.contains (e.expenseDate, e.title) = true
  · rw [if_pos hk]
    exact Or.inl rfl
  · rw [if_neg hk]
    by_cases hb : (!ids.contains e.paidById) = true
    · rw [if_pos hb]
      exact Or.inr (Or.inr ⟨_, rfl⟩)
    · rw [if_neg hb]
      rcases hf : e.paidFor.find? (fun pf => !ids.contains pf.participantId) with _ | pf
      · rw [hf]
        exact Or.inr (Or.inl rfl)
      · rw [hf]
        exact Or.inr (Or.inr ⟨_, rfl⟩)

/-- A successful run of any of the three expense loops leaves participants
and groups unchanged and appends only fresh-uuid expense rows of the target
group. -/
theorem jsonFold_ok_spec (gid : String) (t : Int)
    (step : Store → JSONExpense → Except String Store)
    (hstep : ∀ s e, step s e = .ok s ∨ step s e = .ok (createJSONExpense gid t e s) ∨
      ∃ msg, step s e = .error msg) :
    ∀ (l : List JSONExpense) (s s' : Store),
      l.foldlM step s = .ok s' →
      s'.participants = s.participants ∧
      s'.groups = s.groups ∧
      ∃ ext : List ExpenseRow, s'.expenses = s.expenses ++ ext ∧
        ∀ r ∈ ext, r.groupId = gid ∧ ∃ n, r.id = uuidName n := by
  intro l
  induction l with
  | nil =>
      intro s s' h
      obtain rfl : s = s' := by injection h
      exact ⟨rfl, rfl, [], by simp, by simp⟩
  | cons e l ih =>
      intro s s' h
      rw [List.foldlM_cons] at h
      rcases hstep s e with hse | hse | ⟨msg, hse⟩
      · rw [hse] at h
        simp only [exceptOk_bind] at h
        exact ih s s' h
      · rw [hse] at h
        simp only [exceptOk_bind] at h
        obtain ⟨hp, hg, ext, hex, hprop⟩ := ih _ s' h
        obtain ⟨hcp, hcg, hce⟩ := createJSONExpense_fields gid t e s
        refine ⟨hp.trans hcp, hg.trans hcg,
          jsonExpenseRow gid t e s.nextId (jsonCategoryResult e s).2 :: ext, ?_, ?_⟩
        · rw [hex, hce]
          simp
        · intro r hr
          rcases List.mem_cons.mp hr with rfl | hr
          · exact ⟨rfl, s.nextId, rfl⟩
          · exact hprop r hr
      · rw [hse] at h
        simp only [exceptError_bind] at h
        cases h

/-- A group expense row contributes its (date, title) key. -/
theorem groupExpenseKeys_contains_of_mem (gid : String) (s : Store) (r : ExpenseRow)
    (hr : r ∈ s.expenses) (hg : r.groupId = gid) :
    (groupExpenseKeys gid s).contains (r.expenseDate, r.title) = true := by
  refine (contains_true_iff _ _).mpr ?_
  exact List.mem_map.mpr ⟨r, List.mem_filter.mpr ⟨hr, by simp [hg]⟩, rfl⟩

/-- Appending expense rows preserves existing group keys. -/
theorem groupExpenseKeys_mono (gid : String) {s s' : Store}
    (h : ∃ ext, s'.expenses = s.expenses ++ ext) (k : Int × String)
    (hk : (groupExpenseKeys gid s).contains k = true) :
    (groupExpenseKeys gid s').contains k = true := by
  obtain ⟨ext, hex⟩ := h
  refine (contains_true_iff _ _).mpr ?_
  have hmem := (contains_true_iff _ _).mp hk
  unfold groupExpenseKeys at hmem ⊢
  rw [hex, List.filter_append, List.map_append]
  exact List.mem_append_left _ hmem

/-- After a successful update-mode expense loop, every processed snapshot
expense's key is either among the fetched keys or among the group's keys in
the resulting store. -/
theorem jsonUpdateFold_covers (ids : List String) (keys : List (Int × String))
    (gid : String) (t : Int) :
    ∀ (l : List JSONExpense) (s s' : Store),
      l.foldlM (jsonUpdateStep ids keys gid t) s = .ok s' →
      ∀ e ∈ l, keys.contains (e.expenseDate, e.title) = true ∨
        (groupExpenseKeys gid s').contains (e.expenseDate, e.title) = true := by
  intro l
  induction l with
  | nil =>
      intro s s' _ e he
      cases he
  | cons e0 l ih =>
      intro s s' h e he
      rw [List.foldlM_cons] at h
      rcases jsonUpdateStep_cases ids keys gid t s e0 with hse | hse | ⟨msg, hse⟩
      · -- skipped: its key is among the fetched keys
        rw [hse] at h
        simp only [exceptOk_bind] at h
        have hk : keys.contains (e0.expenseDate, e0.title) = true := by
          by_contra hk
          rw [jsonUpdateStep, if_neg hk] at hse
          by_cases hb : (!ids.contains e0.paidById) = true
          · rw [if_pos hb] at hse
            cases hse
          · rw [if_neg hb] at hse
            rcases hf : e0.paidFor.find? (fun pf => !ids.contains pf.participantId) with _ | pf
            · rw [hf] at hse
              have heq : createJSONExpense gid t e0 s = s := by injection hse
              have hlen := congrArg (fun st : Store => st.expenses.length) heq
              obtain ⟨_, _, hce⟩ := createJSONExpense_fields gid t e0 s
              simp [hce] at hlen
            · rw [hf] at hse
              cases hse
        rcases List.mem_cons.mp he with rfl | he'
        · exact Or.inl hk
        · exact ih s s' h e he'
      · -- inserted: its key is in the resulting store
        rw [hse] at h
        simp only [exceptOk_bind] at h
        rcases List.mem_cons.mp he with rfl | he'
        · obtain ⟨_, _, ext, hex, _⟩ :=
            jsonFold_ok_spec gid t _ (jsonUpdateStep_cases ids keys gid t) l _ s' h
          obtain ⟨_, _, hce⟩ := createJSONExpense_fields gid t e s
          refine Or.inr (groupExpenseKeys_contains_of_mem gid s'
            (jsonExpenseRow gid t e s.nextId (jsonCategoryResult e s).2) ?_ rfl)
          rw [hex, hce]
          simp
        · exact ih _ s' h e he'
      · rw [hse] at h
        simp only [exceptError_bind] at h
        cases h

/-- The update-mode expense loop is a no-op when every key is already
present. -/
theorem jsonUpdateFold_all_skip (ids : List String) (keys : List (Int × String))
    (gid : String) (t : Int) :
    ∀ (l : List JSONExpense) (s : Store),
      (∀ e ∈ l, keys.contains (e.expenseDate, e.title) = true) →
      l.foldlM (jsonUpdateStep ids keys gid t) s = .ok s := by
  intro l
  induction l with
  | nil => intro s _; rfl
  | cons e l ih =>
      intro s h
      rw [List.foldlM_cons]
      have hstep : jsonUpdateStep ids keys gid t s e = .ok s := by
        rw [jsonUpdateStep, if_pos (h e (List.mem_cons_self _ _))]
      rw [hstep]
      simp only [exceptOk_bind]
      exact ih s (fun e' he' => h e' (List.mem_cons_of_mem _ he'))

/-- The group participant ids depend only on the participant rows. -/
theorem groupParticipantIds_congr (gid : String) {s s' : Store}
    (h : s.participants = s'.participants) :
    groupParticipantIds gid s = groupParticipantIds gid s' := by
  unfold groupParticipantIds
  rw [h]

/-- Appending participant rows preserves group participant ids. -/
theorem groupParticipantIds_mono (gid : String) {s s' : Store}
    (h : ∃ ext, s'.participants = s.participants ++ ext) (x : String)
    (hx : (groupParticipantIds gid s).contains x = true) :
    (groupParticipantIds gid s').contains x = true := by
  obtain ⟨ext, hex⟩ := h
  refine (contains_true_iff _ _).mpr ?_
  have hmem := (contains_true_iff _ _).mp hx
  unfold groupParticipantIds at hmem ⊢
  rw [hex, List.filter_append, List.map_append]
  exact List.mem_append_left _ hmem

/-- The participant loop only appends participant rows and touches nothing
else. -/
theorem participantFold_fields (gid : String) :
    ∀ (l : List JSONParticipant) (s : Store) (ids : List String),
      (l.foldl (jsonParticipantStep gid) (s, ids)).1.groups = s.groups ∧
      (l.foldl (jsonParticipantStep gid) (s, ids)).1.expenses = s.expenses ∧
      (l.foldl (jsonParticipantStep gid) (s, ids)).1.activities = s.activities ∧
      (l.foldl (jsonParticipantStep gid) (s, ids)).1.paidFors = s.paidFors ∧
      (l.foldl (jsonParticipantStep gid) (s, ids)).1.categories = s.categories ∧
      (l.foldl (jsonParticipantStep gid) (s, ids)).1.nextId = s.nextId ∧
      ∃ ext, (l.foldl (jsonParticipantStep gid) (s, ids)).1.participants =
        s.participants ++ ext := by
  intro l
  induction l with
  | nil => intro s ids; exact ⟨rfl, rfl, rfl, rfl, rfl, rfl, [], by simp⟩
  | cons p l ih =>
      intro s ids
      rw [List.foldl_cons]
      by_cases hc : ids.contains p.id = true
      · rw [show jsonParticipantStep gid (s, ids) p = (s, ids) from by
          have hmem : p.id ∈ ids := (contains_true_iff _ _).mp hc
          simp [jsonParticipantStep, hmem]]
        exact ih s ids
      · rw [show jsonParticipantStep gid (s, ids) p =
            ({ s with participants := s.participants ++
                [{ id := p.id, groupId := gid, name := p.name }] },
             ids ++ [p.id]) from by
          have hmem : p.id ∉ ids := fun hmem => hc ((contains_true_iff _ _).mpr hmem)
          simp [jsonParticipantStep, hmem]]
        obtain ⟨h1, h2, h3, h4, h5, h6, ext, hext⟩ := ih _ (ids ++ [p.id])
        exact ⟨h1, h2, h3, h4, h5, h6,
          { id := p.id, groupId := gid, name := p.name } :: ext, by simp [hext]⟩

/-- After the participant loop, every id known to the accumulator — and in
particular every processed snapshot participant — is a group participant id
of the resulting store, provided the initial ids were. -/
theorem participantFold_covers (gid : String) :
    ∀ (l : List JSONParticipant) (s : Store) (ids : List String),
      (∀ x, ids.contains x = true → (groupParticipantIds gid s).contains x = true) →
      (∀ x, ids.contains x = true →
        (groupParticipantIds gid
          (l.foldl (jsonParticipantStep gid) (s, ids)).1).contains x = true) ∧
      (∀ p ∈ l, (groupParticipantIds gid
          (l.foldl (jsonParticipantStep gid) (s, ids)).1).contains p.id = true) := by
  intro l
  induction l with
  | nil =>
      intro s ids h
      exact ⟨h, fun p hp => absurd hp (List.not_mem_nil p)⟩
  | cons p0 l ih =>
      intro s ids h
      rw [List.foldl_cons]
      by_cases hc : ids.contains p0.id = true
      · rw [show jsonParticipantStep gid (s, ids) p0 = (s, ids) from by
          have hmem : p0.id ∈ ids := (contains_true_iff _ _).mp hc
          simp [jsonParticipantStep, hmem]]
        obtain ⟨A, B⟩ := ih s ids h
        refine ⟨A, ?_⟩
        intro p hp
        rcases List.mem_cons.mp hp with rfl | hp'
        · exact A p.id hc
        · exact B p hp'
      · rw [show jsonParticipantStep gid (s, ids) p0 =
            ({ s with participants := s.participants ++
                [{ id := p0.id, groupId := gid, name := p0.name }] },
             ids ++ [p0.id]) from by
          have hmem : p0.id ∉ ids := fun hmem => hc ((contains_true_iff _ _).mpr hmem)
          simp [jsonParticipantStep, hmem]]
        set s2 : Store := { s with participants := s.participants ++
          [{ id := p0.id, groupId := gid, name := p0.name }] } with hs2
        have h2 : ∀ x, (ids ++ [p0.id]).contains x = true →
            (groupParticipantIds gid s2).contains x = true := by
          intro x hx
          rcases List.mem_append.mp ((contains_true_iff _ _).mp hx) with hx' | hx'
          · exact groupParticipantIds_mono gid ⟨_, rfl⟩ x (h x ((contains_true_iff _ _).mpr hx'))
          · have : x = p0.id := by simpa using hx'
            subst this
            refine (contains_true_iff _ _).mpr ?_
            unfold groupParticipantIds
            simp [hs2]
        obtain ⟨A, B⟩ := ih s2 (ids ++ [p0.id]) h2
        refine ⟨?_, ?_⟩
        · intro x hx
          refine A x ?_
          refine (contains_true_iff _ _).mpr ?_
          exact List.mem_append_left _ ((contains_true_iff _ _).mp hx)
        · intro p hp
          rcases List.mem_cons.mp hp with rfl | hp'
          · refine A p.id ?_
            refine (contains_true_iff _ _).mpr ?_
            exact List.mem_append_right _ (by simp)
          · exact B p hp'

/-- The participant loop is a no-op when every id is already known. -/
theorem participantFold_all_skip (gid : String) :
    ∀ (l : List JSONParticipant) (s : Store) (ids : List String),
      (∀ p ∈ l, ids.contains p.id = true) →
      l.foldl (jsonParticipantStep gid) (s, ids) = (s, ids) := by
  intro l
  induction l with
  | nil => intro s ids _; rfl
  | cons p l ih =>
      intro s ids h
      rw [List.foldl_cons]
      rw [show jsonParticipantStep gid (s, ids) p = (s, ids) from by
        have hmem : p.id ∈ ids := (contains_true_iff _ _).mp (h p (List.mem_cons_self _ _))
        simp [jsonParticipantStep, hmem]]
      exact ih s ids (fun p' hp' => h p' (List.mem_cons_of_mem _ hp'))

/-! ## Structural lemmas about the backup restore -/
theorem upsertDocument_fields (d : DocumentRow) (s : Store) :
    (upsertDocument d s).participants = s.participants ∧
    (upsertDocument d s).expenses = s.expenses ∧
    (upsertDocument d s).groups = s.groups ∧
    (upsertDocument d s).paidFors = s.paidFors ∧
    (upsertDocument d s).activities = s.activities ∧
    (upsertDocument d s).recurringLinks = s.recurringLinks := by
  unfold upsertDocument
  split_ifs <;> exact ⟨rfl, rfl, rfl, rfl, rfl, rfl⟩

theorem backupDocFold_fields (u : String → Bool) (e : BackupExpense) :
    ∀ (docs : List BackupDocument) (sw : Store × List String),
      (docs.foldl (backupDocStep u e) sw).1.participants = sw.1.participants ∧
      (docs.foldl (backupDocStep u e) sw).1.expenses = sw.1.expenses ∧
      (docs.foldl (backupDocStep u e) sw).1.groups = sw.1.groups ∧
      (docs.foldl (backupDocStep u e) sw).1.paidFors = sw.1.paidFors ∧
      (docs.foldl (backupDocStep u e) sw).1.activities = sw.1.activities ∧
      (docs.foldl (backupDocStep u e) sw).1.recurringLinks = sw.1.recurringLinks := by
  intro docs
  induction docs with
  | nil => intro sw; exact ⟨rfl, rfl, rfl, rfl, rfl, rfl⟩
  | cons d docs ih =>
      intro sw
      rw [List.foldl_cons]
      by_cases hu : u d.url = true
      · obtain ⟨h1, h2, h3, h4, h5, h6⟩ := upsertDocument_fields
          { id := d.id, url := d.url, width := d.width, height := d.height, expenseId := e.id } sw.1
        rw [show backupDocStep u e sw d =
            (upsertDocument { id := d.id, url := d.url, width := d.width, height := d.height, expenseId := e.id } sw.1, sw.2)
          from by simp [backupDocStep, hu]]
        obtain ⟨g1, g2, g3, g4, g5, g6⟩ := ih
          (upsertDocument { id := d.id, url := d.url, width := d.width, height := d.height, expenseId := e.id } sw.1, sw.2)
        exact ⟨g1.trans h1, g2.trans h2, g3.trans h3, g4.trans h4, g5.trans h5, g6.trans h6⟩
      · rw [show backupDocStep u e sw d = (sw.1, sw.2 ++ [docWarning e.title d.url])
          from by simp [backupDocStep, hu]]
        exact ih (sw.1, sw.2 ++ [docWarning e.title d.url])

theorem createBackupExpense_fields (u : String → Bool) (gid : String)
    (sw : Store × List String) (e : BackupExpense) :
    (createBackupExpense u gid sw e).1.participants = sw.1.participants ∧
    (createBackupExpense u gid sw e).1.groups = sw.1.groups ∧
    (createBackupExpense u gid sw e).1.expenses =
      sw.1.expenses ++ [backupExpenseRow gid e] := by
  unfold createBackupExpense insertBackupDocuments
  obtain ⟨h1, h2, h3, h4, h5, h6⟩ := backupDocFold_fields u e e.documents
    ({ sw.1 with
        expenses := sw.1.expenses ++ [backupExpenseRow gid e]
        paidFors := sw.1.paidFors ++
          e.paidFor.map (fun pf => { expenseId := e.id, participantId := pf.participantId, shares := pf.shares }) },
     sw.2)
  cases e.recurringExpenseLink <;> simp_all

theorem createBackupExpenseNoLink_fields (u : String → Bool) (gid : String)
    (sw : Store × List String) (e : BackupExpense) :
    (createBackupExpenseNoLink u gid sw e).1.participants = sw.1.participants ∧
    (createBackupExpenseNoLink u gid sw e).1.groups = sw.1.groups ∧
    (createBackupExpenseNoLink u gid sw e).1.expenses =
      sw.1.expenses ++ [backupExpenseRow gid e] := by
  unfold createBackupExpenseNoLink insertBackupDocuments
  obtain ⟨h1, h2, h3, h4, h5, h6⟩ := backupDocFold_fields u e e.documents
    ({ sw.1 with
        expenses := sw.1.expenses ++ [backupExpenseRow gid e]
        paidFors := sw.1.paidFors ++
          e.paidFor.map (fun pf => { expenseId := e.id, participantId := pf.participantId, shares := pf.shares }) },
     sw.2)
  simp_all

/-- The backup create/rollback expense loop appends exactly the snapshot's
expense rows, identifiers verbatim. -/
theorem backupCreateExpFold_spec (u : String → Bool) (gid : String) :
    ∀ (l : List BackupExpense) (sw : Store × List String),
      (l.foldl (createBackupExpense u gid) sw).1.participants = sw.1.participants ∧
      (l.foldl (createBackupExpense u gid) sw).1.groups = sw.1.groups ∧
      (l.foldl (createBackupExpense u gid) sw).1.expenses =
        sw.1.expenses ++ l.map (backupExpenseRow gid) := by
  intro l
  induction l with
  | nil => intro sw; exact ⟨rfl, rfl, by simp⟩
  | cons e l ih =>
      intro sw
      rw [List.foldl_cons]
      obtain ⟨h1, h2, h3⟩ := createBackupExpense_fields u gid sw e
      obtain ⟨g1, g2, g3⟩ := ih (createBackupExpense u gid sw e)
      exact ⟨g1.trans h1, g2.trans h2, by rw [g3, h3]; simp⟩

/-- The backup update expense loop appends exactly the rows of the snapshot
expenses whose id is missing, identifiers verbatim. -/
theorem backupUpdateExpFold_spec (u : String → Bool) (gid : String)
    (existingIds : List String) :
    ∀ (l : List BackupExpense) (sw : Store × List String),
      (l.foldl (backupExpenseUpdateStep u gid existingIds) sw).1.participants = sw.1.participants ∧
      (l.foldl (backupExpenseUpdateStep u gid existingIds) sw).1.groups = sw.1.groups ∧
      (l.foldl (backupExpenseUpdateStep u gid existingIds) sw).1.expenses =
        sw.1.expenses ++
          (l.filter (fun e => !existingIds.contains e.id)).map (backupExpenseRow gid) := by
  intro l
  induction l with
  | nil => intro sw; exact ⟨rfl, rfl, by simp⟩
  | cons e l ih =>
      intro sw
      rw [List.foldl_cons]
      by_cases hc : existingIds.contains e.id = true
      · have hmem : e.id ∈ existingIds := (contains_true_iff _ _).mp hc
        rw [show backupExpenseUpdateStep u gid existingIds sw e = sw from by
          simp [backupExpenseUpdateStep, hmem]]
        obtain ⟨g1, g2, g3⟩ := ih sw
        refine ⟨g1, g2, ?_⟩
        rw [g3, List.filter_cons]
        simp [hmem]
      · have hmem : e.id ∉ existingIds := fun hm => hc ((contains_true_iff _ _).mpr hm)
        rw [show backupExpenseUpdateStep u gid existingIds sw e =
            createBackupExpenseNoLink u gid sw e from by
          simp [backupExpenseUpdateStep, hmem]]
        obtain ⟨h1, h2, h3⟩ := createBackupExpenseNoLink_fields u gid sw e
        obtain ⟨g1, g2, g3⟩ := ih (createBackupExpenseNoLink u gid sw e)
        refine ⟨g1.trans h1, g2.trans h2, ?_⟩
        rw [g3, h3, List.filter_cons]
        simp [hmem]

/-- The backup update expense loop is a no-op when every snapshot expense id
is already present. -/
theorem backupUpdateExpFold_all_skip (u : String → Bool) (gid : String)
    (existingIds : List String) :
    ∀ (l : List BackupExpense) (sw : Store × List String),
      (∀ e ∈ l, existingIds.contains e.id = true) →
      l.foldl (backupExpenseUpdateStep u gid existingIds) sw = sw := by
  intro l
  induction l with
  | nil => intro sw _; rfl
  | cons e l ih =>
      intro sw h
      rw [List.foldl_cons]
      rw [show backupExpenseUpdateStep u gid existingIds sw e = sw from by
        simp [backupExpenseUpdateStep,
          (contains_true_iff _ _).mp (h e (List.mem_cons_self _ _))]]
      exact ih sw (fun e' he' => h e' (List.mem_cons_of_mem _ he'))

/-- The backup update participant loop only appends participant rows of the
target group, and afterwards every processed participant id is a group
participant id of the result (provided the fetched ids were). -/
theorem backupPartFold_spec (gid : String) (existingIds : List String) :
    ∀ (l : List JSONParticipant) (s : Store),
      (l.foldl (backupParticipantUpdateStep gid existingIds) s).groups = s.groups ∧
      (l.foldl (backupParticipantUpdateStep gid existingIds) s).expenses = s.expenses ∧
      (∃ ext, (l.foldl (backupParticipantUpdateStep gid existingIds) s).participants =
        s.participants ++ ext ∧ ∀ q ∈ ext, q.groupId = gid ∧ q.id ∈ l.map (·.id)) := by
  intro l
  induction l with
  | nil => intro s; exact ⟨rfl, rfl, [], by simp, by simp⟩
  | cons p l ih =>
      intro s
      rw [List.foldl_cons]
      by_cases hc : existingIds.contains p.id = true
      · have hmem : p.id ∈ existingIds := (contains_true_iff _ _).mp hc
        rw [show backupParticipantUpdateStep gid existingIds s p = s from by
          simp [backupParticipantUpdateStep, hmem]]
        obtain ⟨g1, g2, ext, g3, g4⟩ := ih s
        exact ⟨g1, g2, ext, g3, fun q hq => ⟨(g4 q hq).1, List.mem_cons_of_mem _ (g4 q hq).2⟩⟩
      · have hmem : p.id ∉ existingIds := fun hm => hc ((contains_true_iff _ _).mpr hm)
        rw [show backupParticipantUpdateStep gid existingIds s p =
            { s with participants := s.participants ++
                [{ id := p.id, groupId := gid, name := p.name }] } from by
          simp [backupParticipantUpdateStep, hmem]]
        obtain ⟨g1, g2, ext, g3, g4⟩ := ih
          { s with participants := s.participants ++
              [{ id := p.id, groupId := gid, name := p.name }] }
        refine ⟨g1, g2, { id := p.id, groupId := gid, name := p.name } :: ext, ?_, ?_⟩
        · rw [g3]
          simp
        · intro q hq
          rcases List.mem_cons.mp hq with rfl | hq'
          · exact ⟨rfl, by simp⟩
          · exact ⟨(g4 q hq').1, List.mem_cons_of_mem _ (g4 q hq').2⟩

/-- The backup update participant loop is a no-op when every snapshot
participant id is already present. -/
theorem backupPartFold_all_skip (gid : String) (existingIds : List String) :
    ∀ (l : List JSONParticipant) (s : Store),
      (∀ p ∈ l, existingIds.contains p.id = true) →
      l.foldl (backupParticipantUpdateStep gid existingIds) s = s := by
  intro l
  induction l with
  | nil => intro s _; rfl
  | cons p l ih =>
      intro s h
      rw [List.foldl_cons]
      rw [show backupParticipantUpdateStep gid existingIds s p = s from by
        simp [backupParticipantUpdateStep,
          (contains_true_iff _ _).mp (h p (List.mem_cons_self _ _))]]
      exact ih s (fun p' hp' => h p' (List.mem_cons_of_mem _ hp'))

/-! ## C7 -/
theorem jsonUpdateBase_fields (j : JSONImportData) (t : Int) (s : Store) :
    (jsonUpdateBase j t s).participants = s.participants ∧
    (jsonUpdateBase j t s).expenses = s.expenses ∧
    (jsonUpdateBase j t s).groups = s.groups.map (fun g =>
      if g.id == j.id then
        { g with name := j.name, currency := j.currency, currencyCode := j.currencyCode }
      else g) := by
  exact ⟨rfl, rfl, rfl⟩

/-- The metadata update keeps a group with the sought id findable. -/
theorem find?_groupsMap_isSome (j : JSONImportData) (l : List GroupRow)
    (h : (l.find? (fun g => g.id == j.id)).isSome = true) :
    ((l.map (fun g =>
        if g.id == j.id then
          { g with name := j.name, currency := j.currency, currencyCode := j.currencyCode }
        else g)).find? (fun g => g.id == j.id)).isSome = true := by
  rw [List.find?_isSome] at h ⊢
  obtain ⟨g, hg, hp⟩ := h
  refine ⟨if g.id == j.id then
      { g with name := j.name, currency := j.currency, currencyCode := j.currencyCode }
    else g, List.mem_map.mpr ⟨g, hg, rfl⟩, ?_⟩
  rw [if_pos hp]
  exact hp

theorem groupExpenseIds_contains_of_mem (gid : String) (s : Store) (r : ExpenseRow)
    (hr : r ∈ s.expenses) (hg : r.groupId = gid) :
    (groupExpenseIds gid s).contains r.id = true := by
  refine (contains_true_iff _ _).mpr ?_
  exact List.mem_map.mpr ⟨r, List.mem_filter.mpr ⟨hr, by simp [hg]⟩, rfl⟩

theorem groupExpenseIds_mono (gid : String) {s s' : Store}
    (h : ∃ ext, s'.expenses = s.expenses ++ ext) (x : String)
    (hx : (groupExpenseIds gid s).contains x = true) :
    (groupExpenseIds gid s').contains x = true := by
  obtain ⟨ext, hex⟩ := h
  refine (contains_true_iff _ _).mpr ?_
  have hmem := (contains_true_iff _ _).mp hx
  unfold groupExpenseIds at hmem ⊢
  rw [hex, List.filter_append, List.map_append]
  exact List.mem_append_left _ hmem

/-- After the backup update participant loop, every processed participant id
is a group participant id of the result. -/
theorem backupPartFold_covers (gid : String) (existingIds : List String) :
    ∀ (l : List JSONParticipant) (s : Store),
      (∀ x, existingIds.contains x = true → (groupParticipantIds gid s).contains x = true) →
      ∀ p ∈ l, (groupParticipantIds gid
        (l.foldl (backupParticipantUpdateStep gid existingIds) s)).contains p.id = true := by
  intro l
  induction l with
  | nil => intro s _ p hp; cases hp
  | cons p0 l ih =>
      intro s h p hp
      rw [List.foldl_cons]
      by_cases hc : existingIds.contains p0.id = true
      · have hmem : p0.id ∈ existingIds := (contains_true_iff _ _).mp hc
        rw [show backupParticipantUpdateStep gid existingIds s p0 = s from by
          simp [backupParticipantUpdateStep, hmem]]
        rcases List.mem_cons.mp hp with rfl | hp'
        · obtain ⟨_, _, ext, hext, _⟩ := backupPartFold_spec gid existingIds l s
          exact groupParticipantIds_mono gid ⟨ext, hext⟩ p.id (h p.id hc)
        · exact ih s h p hp'
      · have hmem : p0.id ∉ existingIds := fun hm => hc ((contains_true_iff _ _).mpr hm)
        rw [show backupParticipantUpdateStep gid existingIds s p0 =
            { s with participants := s.participants ++
                [{ id := p0.id, groupId := gid, name := p0.name }] } from by
          simp [backupParticipantUpdateStep, hmem]]
        set s2 : Store := { s with participants := s.participants ++
          [{ id := p0.id, groupId := gid, name := p0.name }] } with hs2
        have h2 : ∀ x, existingIds.contains x = true →
            (groupParticipantIds gid s2).contains x = true :=
          fun x hx => groupParticipantIds_mono gid ⟨_, rfl⟩ x (h x hx)
        rcases List.mem_cons.mp hp with rfl | hp'
        · obtain ⟨_, _, ext, hext, _⟩ := backupPartFold_spec gid existingIds l s2
          refine groupParticipantIds_mono gid ⟨ext, hext⟩ p.id ?_
          refine (contains_true_iff _ _).mpr ?_
          unfold groupParticipantIds
          simp [hs2]
        · exact ih s2 h2 p hp'

/-- After the backup update expense loop, every processed snapshot expense
id is a group expense id of the result. -/
theorem backupUpdateExpFold_covers (u : String → Bool) (gid : String)
    (existingIds : List String) :
    ∀ (l : List BackupExpense) (sw : Store × List String),
      (∀ x, existingIds.contains x = true → (groupExpenseIds gid sw.1).contains x = true) →
      ∀ e ∈ l, (groupExpenseIds gid
        (l.foldl (backupExpenseUpdateStep u gid existingIds) sw).1).contains e.id = true := by
  intro l
  induction l with
  | nil => intro sw _ e he; cases he
  | cons e0 l ih =>
      intro sw h e he
      rw [List.foldl_cons]
      by_cases hc : existingIds.contains e0.id = true
      · have hmem : e0.id ∈ existingIds := (contains_true_iff _ _).mp hc
        rw [show backupExpenseUpdateStep u gid existingIds sw e0 = sw from by
          simp [backupExpenseUpdateStep, hmem]]
        rcases List.mem_cons.mp he with rfl | he'
        · obtain ⟨_, _, hext⟩ := backupUpdateExpFold_spec u gid existingIds l sw
          exact groupExpenseIds_mono gid ⟨_, hext⟩ e.id (h e.id hc)
        · exact ih sw h e he'
      · have hmem : e0.id ∉ existingIds := fun hm => hc ((contains_true_iff _ _).mpr hm)
        rw [show backupExpenseUpdateStep u gid existingIds sw e0 =
            createBackupExpenseNoLink u gid sw e0 from by
          simp [backupExpenseUpdateStep, hmem]]
        obtain ⟨hc1, hc2, hc3⟩ := createBackupExpenseNoLink_fields u gid sw e0
        have h2 : ∀ x, existingIds.contains x = true →
            (groupExpenseIds gid (createBackupExpenseNoLink u gid sw e0).1).contains x = true :=
          fun x hx => groupExpenseIds_mono gid ⟨_, hc3⟩ x (h x hx)
        rcases List.mem_cons.mp he with rfl | he'
        · obtain ⟨_, _, hext⟩ := backupUpdateExpFold_spec u gid existingIds l
            (createBackupExpenseNoLink u gid sw e)
          refine groupExpenseIds_mono gid ⟨_, hext⟩ e.id ?_
          have : backupExpenseRow gid e ∈ (createBackupExpenseNoLink u gid sw e).1.expenses := by
            rw [hc3]
            simp
          exact groupExpenseIds_contains_of_mem gid _ _ this rfl
        · exact ih (createBackupExpenseNoLink u gid sw e0) h2 e he'

/-- C7: update-mode restore is idempotent: if a first update-mode run on
a store succeeds, a second run with the same snapshot succeeds and adds zero
new Expense rows and zero new Participant rows — for the lightweight engine
(`restoreGroupFromJSON`) and for the full-backup engine
(`restoreGroupFromBackup`, where the second run reproduces the store
exactly). -/
theorem update_restore_idempotent :
    (∀ (j : JSONImportData) (t1 t2 : Int) (s s1 : Store),
      restoreGroupFromJSON j .update t1 s = .ok s1 →
      ∃ s2, restoreGroupFromJSON j .update t2 s1 = .ok s2 ∧
        s2.expenses = s1.expenses ∧ s2.participants = s1.participants) ∧
    (∀ (u : String → Bool) (b : BackupData) (s s1 : Store) (w : List String),
      restoreGroupFromBackup u b .update s = .ok (s1, w) →
      restoreGroupFromBackup u b .update s1 = .ok (s1, [])) := by
  constructor
  · intro j t1 t2 s s1 h
    rcases hfind : s.groups.find? (fun g => g.id == j.id) with _ | g0
    · simp only [restoreGroupFromJSON, hfind] at h
      cases h
    · simp only [restoreGroupFromJSON, hfind] at h
      obtain ⟨hs1p, hs1g, ext2, hs1e, _⟩ :=
        jsonFold_ok_spec j.id t1 _
          (jsonUpdateStep_cases _ (groupExpenseKeys j.id s) j.id t1) j.expenses _ s1 h
      obtain ⟨hg1, hg2, hg3, hg4, hg5, hg6, extP, hextP⟩ :=
        participantFold_fields j.id j.participants (jsonUpdateBase j t1 s)
          (groupParticipantIds j.id s)
      have hs1groups : s1.groups = s.groups.map (fun g =>
          if g.id == j.id then
            { g with name := j.name, currency := j.currency, currencyCode := j.currencyCode }
          else g) := by
        rw [hs1g, hg1]
        rfl
      have hs1exp : s1.expenses = s.expenses ++ ext2 := by
        rw [hs1e, hg2]
        rfl
      have hs1parts : s1.participants = s.participants ++ extP := by
        rw [hs1p, hextP]
        rfl
      have hfind2 : (s1.groups.find? (fun g => g.id == j.id)).isSome = true := by
        rw [hs1groups]
        exact find?_groupsMap_isSome j s.groups (by rw [hfind]; rfl)
      rcases Option.isSome_iff_exists.mp hfind2 with ⟨g2, hg2eq⟩
      have hcov := participantFold_covers j.id j.participants (jsonUpdateBase j t1 s)
        (groupParticipantIds j.id s)
        (fun x hx => by
          rwa [← groupParticipantIds_congr j.id
            (show s.participants = (jsonUpdateBase j t1 s).participants from rfl)])
      have hpart2 : ∀ p ∈ j.participants,
          (groupParticipantIds j.id s1).contains p.id = true := by
        intro p hp
        have hc := hcov.2 p hp
        rwa [groupParticipantIds_congr j.id
          (show s1.participants =
            ((j.participants.foldl (jsonParticipantStep j.id)
              (jsonUpdateBase j t1 s, groupParticipantIds j.id s)).1).participants from hs1p)]
      have hkeys2 : ∀ e ∈ j.expenses,
          (groupExpenseKeys j.id s1).contains (e.expenseDate, e.title) = true := by
        intro e he
        rcases jsonUpdateFold_covers _ (groupExpenseKeys j.id s) j.id t1
          j.expenses _ s1 h e he with hk | hk
        · exact groupExpenseKeys_mono j.id ⟨ext2, hs1exp⟩ _ hk
        · exact hk
      refine ⟨jsonUpdateBase j t2 s1, ?_, rfl, rfl⟩
      simp only [restoreGroupFromJSON, hg2eq]
      rw [participantFold_all_skip j.id j.participants (jsonUpdateBase j t2 s1)
        (groupParticipantIds j.id s1) hpart2]
      exact jsonUpdateFold_all_skip (groupParticipantIds j.id s1)
        (groupExpenseKeys j.id s1) j.id t2 j.expenses (jsonUpdateBase j t2 s1) hkeys2
  · intro u b s s1 w h
    simp only [restoreGroupFromBackup, exceptOk_bind] at h
    have h' := congrArg (fun x : Except String (Store × List String) =>
      x.map Prod.fst) h
    simp only [Except.map] at h'
    have hS : (b.expenses.foldl
        (backupExpenseUpdateStep u b.group.id
          (groupExpenseIds b.group.id
            (b.participants.foldl
              (backupParticipantUpdateStep b.group.id (groupParticipantIds b.group.id s)) s)))
        ((b.participants.foldl
            (backupParticipantUpdateStep b.group.id (groupParticipantIds b.group.id s)) s),
         [])).1 = s1 := by
      injection h' with h''
    set sP := b.participants.foldl
      (backupParticipantUpdateStep b.group.id (groupParticipantIds b.group.id s)) s with hsP
    obtain ⟨hPgroups, hPexp, extP, hPparts, hPprop⟩ :=
      backupPartFold_spec b.group.id (groupParticipantIds b.group.id s) b.participants s
    obtain ⟨hEparts, hEgroups, hEexp⟩ :=
      backupUpdateExpFold_spec u b.group.id (groupExpenseIds b.group.id sP)
        b.expenses (sP, [])
    have hs1parts : s1.participants = sP.participants := by
      rw [← hS]
      exact hEparts
    have hs1exp : s1.expenses = sP.expenses ++
        ((b.expenses.filter
          (fun e => !(groupExpenseIds b.group.id sP).contains e.id)).map
          (backupExpenseRow b.group.id)) := by
      rw [← hS]
      exact hEexp
    have hpart2 : ∀ p ∈ b.participants,
        (groupParticipantIds b.group.id s1).contains p.id = true := by
      intro p hp
      have hc := backupPartFold_covers b.group.id (groupParticipantIds b.group.id s)
        b.participants s (fun x hx => hx) p hp
      rw [groupParticipantIds_congr b.group.id hs1parts]
      exact groupParticipantIds_mono b.group.id ⟨[], by simp⟩ p.id hc
    have hexp2 : ∀ e ∈ b.expenses,
        (groupExpenseIds b.group.id s1).contains e.id = true := by
      intro e he
      have hc := backupUpdateExpFold_covers u b.group.id (groupExpenseIds b.group.id sP)
        b.expenses (sP, []) (fun x hx => hx) e he
      exact groupExpenseIds_mono b.group.id ⟨[], by rw [hS]; simp⟩ e.id hc
    simp only [restoreGroupFromBackup, exceptOk_bind]
    rw [backupPartFold_all_skip b.group.id (groupParticipantIds b.group.id s1)
      b.participants s1 hpart2]
    rw [backupUpdateExpFold_all_skip u b.group.id (groupExpenseIds b.group.id s1)
      b.expenses (s1, []) hexp2]

set_option maxRecDepth 8192 in
/-- Witness for C7: a first update run on `c7Store` succeeds, and the second
run adds no expenses and no participants. -/
theorem update_restore_idempotent_witness :
    (∃ s1, restoreGroupFromJSON c7Json .update 1 c7Store = .ok s1 ∧
      ∃ s2, restoreGroupFromJSON c7Json .update 2 s1 = .ok s2 ∧
        s2.expenses = s1.expenses ∧ s2.participants = s1.participants) ∧
    (∃ s1 w, restoreGroupFromBackup (fun _ => true) c7Backup .update c7Store = .ok (s1, w) ∧
      restoreGroupFromBackup (fun _ => true) c7Backup .update s1 = .ok (s1, [])) := by
  constructor
  · rcases hr : restoreGroupFromJSON c7Json .update 1 c7Store with m | s1
    · have hok : (restoreGroupFromJSON c7Json .update 1 c7Store).isOk = true := by decide
      rw [hr] at hok
      simp at hok
    · exact ⟨s1, rfl, update_restore_idempotent.1 c7Json 1 2 c7Store s1 hr⟩
  · rcases hr : restoreGroupFromBackup (fun _ => true) c7Backup .update c7Store with m | ⟨s1, w⟩
    · have hok : (restoreGroupFromBackup (fun _ => true) c7Backup .update c7Store).isOk = true := by
        decide
      rw [hr] at hok
      simp at hok
    · exact ⟨s1, w, rfl, update_restore_idempotent.2 (fun _ => true) c7Backup c7Store s1 w hr⟩

/-- Both names interpolated into an error string occur in it verbatim. -/
theorem names_in_concat (a pid b title c : String) :
    pid.data <:+: (a ++ pid ++ b ++ title ++ c).data ∧
    title.data <:+: (a ++ pid ++ b ++ title ++ c).data := by
  constructor
  · exact ⟨a.data, (b ++ title ++ c).data, by simp [String.data_append]⟩
  · exact ⟨(a ++ pid ++ b).data, c.data, by simp [String.data_append]⟩

/-- If some expense of the list has a reference outside `ids`, the
create-mode loop raises an error, and the error message names the missing
identifier and the offending expense's title. -/
theorem jsonCreateFold_error (ids : List String) (gid : String) (t : Int) :
    ∀ (l : List JSONExpense) (s : Store),
      (∃ e ∈ l, ∃ pid : String,
        (pid = e.paidById ∨ pid ∈ e.paidFor.map (·.participantId)) ∧ pid ∉ ids) →
      ∃ (e : JSONExpense) (pid msg : String), e ∈ l ∧
        (pid = e.paidById ∨ pid ∈ e.paidFor.map (·.participantId)) ∧ pid ∉ ids ∧
        l.foldlM (jsonCreateStep ids gid t) s = .error msg ∧
        pid.data <:+: msg.data ∧ e.title.data <:+: msg.data := by
  intro l
  induction l with
  | nil =>
      intro s h
      obtain ⟨e, he, _⟩ := h
      cases he
  | cons e0 l ih =>
      intro s h
      by_cases hb : ids.contains e0.paidById = true
      · rcases hf : e0.paidFor.find? (fun pf => !ids.contains pf.participantId) with _ | pf
        · -- e0 passes validation: the bad expense is in the tail
          have hstep : jsonCreateStep ids gid t s e0 = .ok (createJSONExpense gid t e0 s) := by
            rw [jsonCreateStep, if_neg (by simp [(contains_true_iff _ _).mp hb]), hf]
          have htail : ∃ e ∈ l, ∃ pid : String,
              (pid = e.paidById ∨ pid ∈ e.paidFor.map (·.participantId)) ∧ pid ∉ ids := by
            obtain ⟨e, he, pid, hform, hmiss⟩ := h
            rcases List.mem_cons.mp he with rfl | he'
            · exfalso
              rcases hform with rfl | hpf
              · exact hmiss ((contains_true_iff _ _).mp hb)
              · obtain ⟨pf, hpfMem, hpfId⟩ := List.mem_map.mp hpf
                have := List.find?_eq_none.mp hf pf hpfMem
                simp only [Bool.not_eq_true', Bool.not_eq_false] at this
                exact hmiss (hpfId ▸ (contains_true_iff _ _).mp this)
            · exact ⟨e, he', pid, hform, hmiss⟩
          obtain ⟨e, pid, msg, he, hform, hmiss, herr, h1, h2⟩ :=
            ih (createJSONExpense gid t e0 s) htail
          refine ⟨e, pid, msg, List.mem_cons_of_mem _ he, hform, hmiss, ?_, h1, h2⟩
          rw [List.foldlM_cons, hstep]
          simpa using herr
        · -- e0 has an invalid split participant
          have hstep : jsonCreateStep ids gid t s e0 =
              .error (createPaidForMsg pf.participantId e0.title) := by
            rw [jsonCreateStep, if_neg (by simp [(contains_true_iff _ _).mp hb]), hf]
          have hpfMem := List.mem_of_find?_eq_some hf
          have hpfBad := List.find?_some hf
          simp only [Bool.not_eq_true'] at hpfBad
          refine ⟨e0, pf.participantId, createPaidForMsg pf.participantId e0.title,
            List.mem_cons_self _ _,
            Or.inr (List.mem_map.mpr ⟨pf, hpfMem, rfl⟩),
            (contains_false_iff _ _).mp hpfBad, ?_, ?_, ?_⟩
          · rw [List.foldlM_cons, hstep]
            rfl
          · exact (names_in_concat "Invalid participantId: " pf.participantId
              " not found in participants for expense \"" e0.title
              "\". This expense is shared with a participant that doesn\x27t exist in the imported participant list.").1
          · exact (names_in_concat "Invalid participantId: " pf.participantId
              " not found in participants for expense \"" e0.title
              "\". This expense is shared with a participant that doesn\x27t exist in the imported participant list.").2
      · -- e0 has an invalid payer
        have hstep : jsonCreateStep ids gid t s e0 =
            .error (createPaidByMsg e0.paidById e0.title) := by
          rw [jsonCreateStep, if_pos (by
            simp [show e0.paidById ∉ ids from fun hm => hb ((contains_true_iff _ _).mpr hm)])]
        refine ⟨e0, e0.paidById, createPaidByMsg e0.paidById e0.title,
          List.mem_cons_self _ _, Or.inl rfl,
          fun hm => hb ((contains_true_iff _ _).mpr hm), ?_, ?_, ?_⟩
        · rw [List.foldlM_cons, hstep]
          rfl
        · exact (names_in_concat "Invalid paidById: " e0.paidById
            " not found in participants for expense \"" e0.title
            "\". This expense was paid by a participant that doesn\x27t exist in the imported participant list.").1
        · exact (names_in_concat "Invalid paidById: " e0.paidById
            " not found in participants for expense \"" e0.title
            "\". This expense was paid by a participant that doesn\x27t exist in the imported participant list.").2

/-- C1 amended: for the lightweight format the property holds exactly as
claimed: a snapshot with an expense referencing a participant absent from
its own participant list makes the create-mode restore raise an error whose
message names the missing identifier and the offending expense's title, and
the surrounding transaction leaves the store unchanged.  The full-backup
restore, however, performs no referential validation at all: create-mode
`restoreGroupFromBackup` always succeeds. -/
theorem restore_missing_participant_validation :
    (∀ (j : JSONImportData) (t : Int) (s : Store),
      (∃ e ∈ j.expenses, ∃ pid, jsonMissingRef j e pid) →
      ∃ msg, restoreGroupFromJSON j .create t s = .error msg ∧
        applyTx (restoreGroupFromJSON j .create t) s = s ∧
        ∃ e ∈ j.expenses, ∃ pid, jsonMissingRef j e pid ∧
          pid.data <:+: msg.data ∧ e.title.data <:+: msg.data) ∧
    (∀ (u : String → Bool) (b : BackupData) (s : Store),
      ∃ sw, restoreGroupFromBackup u b .create s = .ok sw) := by
  constructor
  · intro j t s h
    obtain ⟨e, pid, msg, hmem, hform, hmiss, herr, h1, h2⟩ :=
      jsonCreateFold_error (j.participants.map (·.id)) j.id t j.expenses
        (addJSONMarkerActivity j .create t
          { s with
            groups := s.groups ++
              [{ id := j.id, name := j.name, currency := j.currency
                 currencyCode := j.currencyCode, information := none
                 createdAt := t }]
            participants := s.participants ++
              j.participants.map (fun p => { id := p.id, groupId := j.id, name := p.name }) })
        (by
          obtain ⟨e, he, pid, href⟩ := h
          exact ⟨e, he, pid, href.1, href.2⟩)
    have hrun : restoreGroupFromJSON j .create t s = .error msg := by
      simp only [restoreGroupFromJSON]
      exact herr
    refine ⟨msg, hrun, ?_, e, hmem, pid, ⟨hform, hmiss⟩, h1, h2⟩
    unfold applyTx
    rw [hrun]
  · intro u b s
    exact ⟨_, rfl⟩

/-- Witness for C1 (amended): the lightweight validation fires on `c1Json`
and the transaction leaves the empty store unchanged. -/
theorem restore_missing_participant_validation_witness :
    ∃ msg, restoreGroupFromJSON c1Json .create 0 emptyStore = .error msg ∧
      applyTx (restoreGroupFromJSON c1Json .create 0) emptyStore = emptyStore ∧
      ∃ e ∈ c1Json.expenses, ∃ pid, jsonMissingRef c1Json e pid ∧
        pid.data <:+: msg.data ∧ e.title.data <:+: msg.data :=
  restore_missing_participant_validation.1 c1Json 0 emptyStore
    ⟨c1BadExpense, by decide, "p3", Or.inl rfl, by decide⟩

/-- C1 counterexample: a full-backup snapshot whose expense is paid by
a participant absent from its own participant list restores in create mode
without any error: the group is created and the dangling expense row is
written (the claim demands an error naming the identifier and zero rows
written). -/
theorem restoreBackup_skips_validation :
    (∃ e ∈ c1Backup.expenses, e.paidById = "ghost") ∧
    "ghost" ∉ c1Backup.participants.map (·.id) ∧
    (restoreGroupFromBackup (fun _ => true) c1Backup .create emptyStore).map
        (fun sw => (sw.1.groups.map (·.id), sw.1.expenses.map (·.id), sw.2)) =
      .ok (["g"], ["e1"], []) := by
  refine ⟨by decide, by decide, rfl⟩

/-! ## C5 -/
theorem filter_not_self {α : Type} (l : List α) (q : α → Bool) :
    (l.filter (fun x => !q x)).filter q = [] := by
  induction l with
  | nil => rfl
  | cons a l ih =>
      rw [List.filter_cons]
      by_cases h : q a = true
      · simp only [h, Bool.not_true, Bool.false_eq_true, if_false]
        exact ih
      · have h' : q a = false := by simpa using h
        simp only [h', Bool.not_false, if_pos, List.filter_cons, h', Bool.false_eq_true,
          if_false]
        exact ih

/-- C5 amended: identifier semantics of the restores.  In the
full-backup format, every mode writes Expense rows with the snapshot's
identifiers verbatim (create appends all of them, rollback recreates exactly
them, and update appends the missing ones verbatim — it does NOT synthesize
fresh identifiers); Group and Participant identifiers are likewise
preserved.  In the lightweight format, Group and Participant identifiers are
preserved verbatim on create and rollback, but Expense identifiers are
synthesized from the uuid supply in every mode, because that format carries
no per-expense identifiers. -/
theorem restore_identifier_semantics :
    (∀ (u : String → Bool) (b : BackupData) (s s' : Store) (w : List String),
      restoreGroupFromBackup u b .create s = .ok (s', w) →
      s'.groups.map (·.id) = s.groups.map (·.id) ++ [b.group.id] ∧
      s'.participants.map (·.id) = s.participants.map (·.id) ++ b.participants.map (·.id) ∧
      s'.expenses.map (·.id) = s.expenses.map (·.id) ++ b.expenses.map (·.id)) ∧
    (∀ (u : String → Bool) (b : BackupData) (s s' : Store) (w : List String),
      restoreGroupFromBackup u b .rollback s = .ok (s', w) →
      (s'.participants.filter (fun p => p.groupId == b.group.id)).map (·.id) =
        b.participants.map (·.id) ∧
      (s'.expenses.filter (fun e => e.groupId == b.group.id)).map (·.id) =
        b.expenses.map (·.id)) ∧
    (∀ (u : String → Bool) (b : BackupData) (s s' : Store) (w : List String),
      restoreGroupFromBackup u b .update s = .ok (s', w) →
      s'.expenses.map (·.id) = s.expenses.map (·.id) ++
        ((b.expenses.filter
          (fun e => !(groupExpenseIds b.group.id s).contains e.id)).map (·.id))) ∧
    (∀ (j : JSONImportData) (t : Int) (s s' : Store),
      restoreGroupFromJSON j .create t s = .ok s' →
      s'.groups.map (·.id) = s.groups.map (·.id) ++ [j.id] ∧
      s'.participants.map (·.id) = s.participants.map (·.id) ++ j.participants.map (·.id) ∧
      ∃ ext, s'.expenses = s.expenses ++ ext ∧ ∀ r ∈ ext, ∃ n, r.id = uuidName n) ∧
    (∀ (j : JSONImportData) (t : Int) (s s' : Store),
      restoreGroupFromJSON j .rollback t s = .ok s' →
      (s'.participants.filter (fun p => p.groupId == j.id)).map (·.id) =
        j.participants.map (·.id) ∧
      ∀ r ∈ s'.expenses.filter (fun e => e.groupId == j.id), ∃ n, r.id = uuidName n) ∧
    (∀ (j : JSONImportData) (t : Int) (s s' : Store),
      restoreGroupFromJSON j .update t s = .ok s' →
      ∃ ext, s'.expenses = s.expenses ++ ext ∧ ∀ r ∈ ext, ∃ n, r.id = uuidName n) := by
  refine ⟨?_, ?_, ?_, ?_, ?_, ?_⟩
  · -- backup create
    intro u b s s' w h
    simp only [restoreGroupFromBackup, exceptOk_bind] at h
    have hpair := (Except.ok.injEq _ _).mp h
    have h1 : s' = _ := (congrArg Prod.fst hpair).symm
    obtain ⟨hfp, hfg, hfe⟩ := backupCreateExpFold_spec u b.group.id b.expenses
      ({ { s with groups := s.groups ++ [backupGroupRow b.group] } with
          participants := { s with groups := s.groups ++ [backupGroupRow b.group] }.participants ++
            b.participants.map (fun p => { id := p.id, groupId := b.group.id, name := p.name }) },
       [])
    refine ⟨?_, ?_, ?_⟩
    · rw [h1]
      have : (b.expenses.foldl (createBackupExpense u b.group.id) _).1.groups =
          s.groups ++ [backupGroupRow b.group] := hfg
      calc _ = ((s.groups ++ [backupGroupRow b.group]).map (·.id)) := by
            exact congrArg (List.map (·.id)) this
        _ = s.groups.map (·.id) ++ [b.group.id] := by simp [backupGroupRow]
    · rw [h1]
      have : (b.expenses.foldl (createBackupExpense u b.group.id) _).1.participants =
          s.participants ++
            b.participants.map (fun p => ({ id := p.id, groupId := b.group.id, name := p.name } : ParticipantRow)) := hfp
      calc _ = ((s.participants ++
            b.participants.map (fun p => ({ id := p.id, groupId := b.group.id, name := p.name } : ParticipantRow))).map (·.id)) := by
            exact congrArg (List.map (·.id)) this
        _ = s.participants.map (·.id) ++ b.participants.map (·.id) := by
            simp [List.map_map, Function.comp]
    · rw [h1]
      calc _ = ((s.expenses ++ b.expenses.map (backupExpenseRow b.group.id)).map (·.id)) := by
            exact congrArg (List.map (·.id)) hfe
        _ = s.expenses.map (·.id) ++ b.expenses.map (·.id) := by
            simp [List.map_map, Function.comp, backupExpenseRow]
  · -- backup rollback
    intro u b s s' w h
    rcases hfind : s.groups.find? (fun gr => gr.id == b.group.id) with _ | g0
    · simp only [restoreGroupFromBackup, hfind, exceptError_bind] at h
      cases h
    · simp only [restoreGroupFromBackup, hfind, exceptOk_bind] at h
      have hpair := (Except.ok.injEq _ _).mp h
      have h1 : s' = _ := (congrArg Prod.fst hpair).symm
      obtain ⟨hfp, hfg, hfe⟩ := backupCreateExpFold_spec u b.group.id b.expenses
        ({ s with
            groups := s.groups.map (fun gr =>
              if gr.id == b.group.id then
                { gr with name := b.group.name, information := b.group.information
                          currency := b.group.currency, currencyCode := b.group.currencyCode }
              else gr)
            participants := s.participants.filter (fun p => !(p.groupId == b.group.id)) ++
              b.participants.map (fun p => { id := p.id, groupId := b.group.id, name := p.name })
            expenses := s.expenses.filter (fun e => !(e.groupId == b.group.id))
            paidFors := s.paidFors.filter
              (fun pf => !(groupExpenseIds b.group.id s).contains pf.expenseId)
            activities := s.activities.filter (fun a => !(a.groupId == b.group.id)) },
         [])
      constructor
      · rw [h1]
        calc _ = (((s.participants.filter (fun p => !(p.groupId == b.group.id))) ++
              b.participants.map (fun p => ({ id := p.id, groupId := b.group.id, name := p.name } : ParticipantRow))).filter
                (fun p => p.groupId == b.group.id)).map (·.id) := by
              exact congrArg (fun l => (List.filter (fun p => p.groupId == b.group.id) l).map (·.id)) hfp
          _ = b.participants.map (·.id) := by
              rw [List.filter_append, filter_not_self,
                List.filter_eq_self.mpr (by
                  intro p hp
                  obtain ⟨q, _, rfl⟩ := List.mem_map.mp hp
                  simp)]
              simp [List.map_map, Function.comp]
      · rw [h1]
        calc _ = (((s.expenses.filter (fun e => !(e.groupId == b.group.id))) ++
              b.expenses.map (backupExpenseRow b.group.id)).filter
                (fun e => e.groupId == b.group.id)).map (·.id) := by
              exact congrArg (fun l => (List.filter (fun e => e.groupId == b.group.id) l).map (·.id)) hfe
          _ = b.expenses.map (·.id) := by
              rw [List.filter_append, filter_not_self,
                List.filter_eq_self.mpr (by
                  intro e he
                  obtain ⟨q, _, rfl⟩ := List.mem_map.mp he
                  simp [backupExpenseRow])]
              simp [List.map_map, Function.comp, backupExpenseRow]
  · -- backup update
    intro u b s s' w h
    simp only [restoreGroupFromBackup, exceptOk_bind] at h
    have hpair := (Except.ok.injEq _ _).mp h
    have h1 : s' = _ := (congrArg Prod.fst hpair).symm
    set sP := b.participants.foldl
      (backupParticipantUpdateStep b.group.id (groupParticipantIds b.group.id s)) s with hsP
    obtain ⟨hPgroups, hPexp, _⟩ :=
      backupPartFold_spec b.group.id (groupParticipantIds b.group.id s) b.participants s
    have hIds : groupExpenseIds b.group.id sP = groupExpenseIds b.group.id s := by
      unfold groupExpenseIds
      rw [hPexp]
    have hfe : (b.expenses.foldl
        (backupExpenseUpdateStep u b.group.id (groupExpenseIds b.group.id sP)) (sP, [])).1.expenses =
        sP.expenses ++
          ((b.expenses.filter
            (fun e => !(groupExpenseIds b.group.id sP).contains e.id)).map
            (backupExpenseRow b.group.id)) :=
      (backupUpdateExpFold_spec u b.group.id (groupExpenseIds b.group.id sP) b.expenses (sP, [])).2.2
    rw [h1]
    calc _ = ((sP.expenses ++
          ((b.expenses.filter
            (fun e => !(groupExpenseIds b.group.id sP).contains e.id)).map
            (backupExpenseRow b.group.id))).map (·.id)) := by
          exact congrArg (List.map (·.id)) hfe
      _ = s.expenses.map (·.id) ++
          ((b.expenses.filter
            (fun e => !(groupExpenseIds b.group.id s).contains e.id)).map (·.id)) := by
          rw [hIds, hPexp]
          simp [List.map_map, Function.comp, backupExpenseRow]
  · -- json create
    intro j t s s' h
    simp only [restoreGroupFromJSON] at h
    obtain ⟨hp, hg, ext, hex, hprop⟩ :=
      jsonFold_ok_spec j.id t _
        (fun s e => Or.elim (jsonCreateStep_cases (j.participants.map (·.id)) j.id t s e)
          (fun h => Or.inr (Or.inl h)) (fun h => Or.inr (Or.inr h)))
        j.expenses _ s' h
    refine ⟨?_, ?_, ext, ?_, fun r hr => (hprop r hr).2⟩
    · have h' := congrArg (List.map (·.id)) hg
      simpa [addJSONMarkerActivity] using h'
    · have h' := congrArg (List.map (·.id)) hp
      simpa [addJSONMarkerActivity, List.map_map, Function.comp] using h'
    · exact hex
  · -- json rollback
    intro j t s s' h
    rcases hfind : s.groups.find? (fun g => g.id == j.id) with _ | g0
    · simp only [restoreGroupFromJSON, hfind] at h
      cases h
    · simp only [restoreGroupFromJSON, hfind] at h
      obtain ⟨hp, hg, ext, hex, hprop⟩ :=
        jsonFold_ok_spec j.id t _
          (fun s e => Or.elim (jsonRollbackStep_cases (j.participants.map (·.id)) j.id t s e)
            (fun h => Or.inr (Or.inl h)) (fun h => Or.inr (Or.inr h)))
          j.expenses _ s' h
      constructor
      · calc (s'.participants.filter (fun p => p.groupId == j.id)).map (·.id) =
            (((s.participants.filter (fun p => !(p.groupId == j.id))) ++
              j.participants.map (fun p => ({ id := p.id, groupId := j.id, name := p.name } : ParticipantRow))).filter
                (fun p => p.groupId == j.id)).map (·.id) := by
              exact congrArg (fun l => (List.filter (fun p => p.groupId == j.id) l).map (·.id)) hp
          _ = j.participants.map (·.id) := by
              rw [List.filter_append, filter_not_self,
                List.filter_eq_self.mpr (by
                  intro p hp'
                  obtain ⟨q, _, rfl⟩ := List.mem_map.mp hp'
                  simp)]
              simp [List.map_map, Function.comp]
      · intro r hr
        have hr' := List.mem_filter.mp hr
        have : r ∈ s.expenses.filter (fun e => !(e.groupId == j.id)) ++ ext := by
          have := hr'.1
          rw [hex] at this
          exact this
        rcases List.mem_append.mp this with hleft | hright
        · exfalso
          have := (List.mem_filter.mp hleft).2
          rw [hr'.2] at this
          simp at this
        · exact (hprop r hright).2
  · -- json update
    intro j t s s' h
    rcases hfind : s.groups.find? (fun g => g.id == j.id) with _ | g0
    · simp only [restoreGroupFromJSON, hfind] at h
      cases h
    · simp only [restoreGroupFromJSON, hfind] at h
      obtain ⟨hp, hg, ext, hex, hprop⟩ :=
        jsonFold_ok_spec j.id t _
          (jsonUpdateStep_cases _ (groupExpenseKeys j.id s) j.id t)
          j.expenses _ s' h
      obtain ⟨_, hg2, _, _, _, _, _, _⟩ :=
        participantFold_fields j.id j.participants (jsonUpdateBase j t s)
          (groupParticipantIds j.id s)
      refine ⟨ext, ?_, fun r hr => (hprop r hr).2⟩
      rw [hex, hg2]
      rfl

/-- C5 counterexample: an update-mode full-backup restore writes the
newly added Expense row with the snapshot's identifier `e1` verbatim — not a
synthesized one — and a create-mode lightweight restore writes its Expense
row with an identifier drawn from the uuid supply, since the snapshot
carries none to preserve. -/
theorem restore_identifier_claim_fails :
    (restoreGroupFromBackup (fun _ => true) c5Backup .update c5Store).map
        (fun sw => sw.1.expenses.map (·.id)) = .ok ["e1"] ∧
    c5Backup.expenses.map (·.id) = ["e1"] ∧
    (restoreGroupFromJSON c5Json .create 0 emptyStore).map
        (fun st => st.expenses.map (·.id)) = .ok [uuidName 1] ∧
    uuidName 1 = "uuid-1" := by
  exact ⟨rfl, rfl, rfl, rfl⟩

/-- Witness for C5 (amended), at the concrete update and create scenarios. -/
theorem restore_identifier_semantics_witness :
    (∃ s1 w, restoreGroupFromBackup (fun _ => true) c5Backup .update c5Store = .ok (s1, w) ∧
      s1.expenses.map (·.id) = c5Store.expenses.map (·.id) ++
        ((c5Backup.expenses.filter
          (fun e => !(groupExpenseIds c5Backup.group.id c5Store).contains e.id)).map (·.id))) ∧
    (∃ s2, restoreGroupFromJSON c5Json .create 0 emptyStore = .ok s2 ∧
      s2.groups.map (·.id) = emptyStore.groups.map (·.id) ++ [c5Json.id] ∧
      s2.participants.map (·.id) =
        emptyStore.participants.map (·.id) ++ c5Json.participants.map (·.id) ∧
      ∃ ext, s2.expenses = emptyStore.expenses ++ ext ∧
        ∀ r ∈ ext, ∃ n, r.id = uuidName n) := by
  constructor
  · rcases hr : restoreGroupFromBackup (fun _ => true) c5Backup .update c5Store with m | ⟨s1, w⟩
    · have hok : (restoreGroupFromBackup (fun _ => true) c5Backup .update c5Store).isOk = true := by
        decide
      rw [hr] at hok
      simp at hok
    · exact ⟨s1, w, rfl,
        restore_identifier_semantics.2.2.1 (fun _ => true) c5Backup c5Store s1 w hr⟩
  · rcases hr : restoreGroupFromJSON c5Json .create 0 emptyStore with m | s2
    · have hok : (restoreGroupFromJSON c5Json .create 0 emptyStore).isOk = true := by decide
      rw [hr] at hok
      simp at hok
    · exact ⟨s2, rfl, restore_identifier_semantics.2.2.2.1 c5Json 0 emptyStore s2 hr⟩

end Spliit
